import Mathlib

/-!
# Vitruvio: geometry callbacks of the Unreal geometry encoder

A shallow embedding of `UnrealCallbacks.cpp` (mesh assembly, material creation,
prototype registry, instance transforms) together with the properties proved
about it.

Conventions of the embedding.

* A C array passed as `(pointer, size)` is a `List`; its size is the length of
  the list.  Every read goes through `readAt`, which reports `outOfBounds`
  where the C++ code would read past the end of the array.
* `double` and `float` values are elements of an arbitrary scalar type `R`
  (a ring for the mesh code, a linearly ordered field for the transform
  code); rounding is not modelled.
* `size_t` cursors are natural numbers.  A cursor only grows after the array
  entries below it have been read successfully, so it never exceeds the
  length of an array and cannot wrap.
* `uint32_t` values are natural numbers; the products and sums that the code
  forms in `uint32_t` arithmetic are reduced modulo `2 ^ 32`.
* Objects created with `NewObject` live in a heap list and are referred to by
  their index.
* `check(...)` is active, as in every build that keeps checks; a callback
  returns its outcome together with the state of the object when the call ends.
* Engine and SDK code that the callbacks call but that is not part of the
  repository (mesh description, containers, matrix and quaternion routines,
  attribute maps) is modelled next to the code that uses it.
-/

namespace Vitruvio

/-! ## Errors and bounds-checked reads -/

/-- The ways in which a run of the callbacks can abort. -/
inductive Err where
  /-- A read or write outside the bounds of an array. -/
  | outOfBounds
  /-- An element id that does not address an element of the mesh description. -/
  | invalidElement
  /-- A failed `check(...)`. -/
  | checkFailed
deriving DecidableEq, Repr

/-- Bounds-checked read of `xs[i]`. -/
def readAt {α : Type} (xs : List α) (i : Nat) : Except Err α :=
  match xs[i]? with
  | some a => .ok a
  | none => .error .outOfBounds

/-- The loop `for (i = lo; i < lo + n; ++i) body(i)` over a state `σ`. -/
def forRange {σ : Type} (body : Nat → σ → Except Err σ) : Nat → Nat → σ → Except Err σ
  | _, 0, s => .ok s
  | lo, n + 1, s =>
    match body lo s with
    | .ok s' => forRange body (lo + 1) n s'
    | .error e => .error e

/-- Reduction of a result of `uint32_t` arithmetic. -/
def wrap32 (n : Nat) : Nat := n % 2 ^ 32

/-! ## Vectors -/

/-- The engine's `FVector`. -/
structure FVector (R : Type) where
  X : R
  Y : R
  Z : R
deriving DecidableEq, Repr

/-- The engine's `FVector2D`. -/
structure FVector2D (R : Type) where
  X : R
  Y : R
deriving DecidableEq, Repr

/-- The engine's `FVector::operator*(float)`: componentwise scaling. -/
def FVector.scale {R : Type} [Mul R] (v : FVector R) (s : R) : FVector R :=
  ⟨v.X * s, v.Y * s, v.Z * s⟩

/-! ## Maps -/

/-- Modelled from the spec: `TMap` is an engine container outside this
repository: a mapping with at most one value per key, kept here as a list of
pairs in insertion order. -/
abbrev TMap (K V : Type) := List (K × V)

section Map

variable {K V : Type} [DecidableEq K]

/-- The lookup `TMap::Find`. -/
def TMap.Find (m : TMap K V) (Key : K) : Option V :=
  match m with
  | [] => none
  | (k, v) :: rest => if k = Key then some v else TMap.Find rest Key

/-- The test `TMap::Contains`. -/
def TMap.Contains (m : TMap K V) (Key : K) : Bool :=
  (TMap.Find m Key).isSome

/-- The insertion `TMap::Add`: sets the value associated with the key, replacing the value
of a key that is already present. -/
def TMap.Add (m : TMap K V) (Key : K) (Value : V) : TMap K V :=
  match m with
  | [] => [(Key, Value)]
  | (k, v) :: rest => if k = Key then (Key, Value) :: rest else (k, v) :: TMap.Add rest Key Value

/-- The lookup `TMap::FindOrAdd`: the value of the key, which is added with the default
value when absent; returns the map together with that value. -/
def TMap.FindOrAdd (m : TMap K V) (Key : K) (Default : V) : TMap K V × V :=
  match TMap.Find m Key with
  | some v => (m, v)
  | none => (TMap.Add m Key Default, Default)

end Map

/-! ## Attribute maps and materials -/

/-- A value stored in a `prt::AttributeMap`. -/
inductive AttrValue (R : Type) where
  | bool (b : Bool)
  | float (x : R)
  | string (s : String)
  | boolArray (bs : List Bool)
  | floatArray (xs : List R)
  | stringArray (ss : List String)
deriving DecidableEq, Repr

/-- Modelled from the spec: `prt::AttributeMap` is a type of the generation
engine's SDK, outside this repository.  It is a mapping from attribute name to
a typed value, kept here as a list of entries. -/
structure AttributeMap (R : Type) where
  entries : TMap String (AttrValue R)
deriving DecidableEq, Repr

/-- The accessor `AttributeMap::getKeys`. -/
def AttributeMap.getKeys {R : Type} (m : AttributeMap R) : List String :=
  m.entries.map Prod.fst

/-- The accessor `AttributeMap::getStringArray`: the strings stored under `key`, and no
values at all when the key is absent or holds another type. -/
def AttributeMap.getStringArray {R : Type} (m : AttributeMap R) (key : String) : List String :=
  match TMap.Find m.entries key with
  | some (.stringArray ss) => ss
  | _ => []

/-- Modelled from the spec: the setters of `prt::AttributeMapBuilder` are SDK
code outside this repository; a setter overwrites any prior value for the
key. -/
def AttributeMap.set {R : Type} (m : AttributeMap R) (key : String) (value : AttrValue R) :
    AttributeMap R :=
  ⟨TMap.Add m.entries key value⟩

/-- Read access by key; `none` is the "key not present" miss signal. -/
def AttributeMap.get {R : Type} (m : AttributeMap R) (key : String) : Option (AttrValue R) :=
  TMap.Find m.entries key

/-- The engine's pixel formats that occur in the code. -/
inductive EPixelFormat where
  | PF_B8G8R8A8
deriving DecidableEq, Repr

/-- One row of the engine's `GPixelFormats` table. -/
structure FPixelFormatInfo where
  BlockSizeX : Int
  BlockSizeY : Int
  BlockBytes : Int
deriving DecidableEq, Repr

/-- Modelled from the spec: `GPixelFormats` is an engine table outside this
repository; `PF_B8G8R8A8` has one-pixel blocks of four bytes. -/
def GPixelFormats : EPixelFormat → FPixelFormatInfo
  | .PF_B8G8R8A8 => ⟨1, 1, 4⟩

/-- A `UTexture2D` as built by `CreateTexture`: its name, its platform data
and the bytes of its first mip. -/
structure UTexture2D where
  Name : String
  SizeX : Int
  SizeY : Int
  PixelFormat : EPixelFormat
  MipBytes : Int
  MipData : List Nat
deriving DecidableEq, Repr

/-- The function `CreateTexture`: rejects sizes that are not positive multiples of the
block size, otherwise builds a texture whose first mip holds the pixel data.
`MakeUniqueObjectName` is taken to return the base name. -/
def CreateTexture (PixelData : List Nat) (InSizeX InSizeY : Int) (InFormat : EPixelFormat)
    (BaseName : String) : Option UTexture2D :=
  if InSizeX ≤ 0 ∨ InSizeY ≤ 0 ∨
      InSizeX % (GPixelFormats InFormat).BlockSizeX ≠ 0 ∨
      InSizeY % (GPixelFormats InFormat).BlockSizeY ≠ 0 then
    none
  else
    let NumBlocksX := InSizeX / (GPixelFormats InFormat).BlockSizeX
    let NumBlocksY := InSizeY / (GPixelFormats InFormat).BlockSizeY
    some
      { Name := BaseName
        SizeX := InSizeX
        SizeY := InSizeY
        PixelFormat := InFormat
        MipBytes := NumBlocksX * NumBlocksY * (GPixelFormats InFormat).BlockBytes
        MipData := PixelData }

/-- An image wrapper after `SetCompressed` and `GetRaw(BGRA, 8)`: the raw
pixels (absent when decompression failed) and the image size. -/
structure ImageWrapper where
  Raw : Option (List Nat)
  Width : Int
  Height : Int

/-- Modelled from the spec: the disk and the engine's image wrapper module are
collaborators outside this repository (a URI resolves to a decoded pixel
buffer with its dimensions, or to a failure).  `DetectImageFormat` answers
`none` for `EImageFormat::Invalid`, `CreateImageWrapper` answers `none` for an
invalid wrapper. -/
structure Host where
  FileExists : String → Bool
  LoadFileToArray : String → Option (List Nat)
  DetectImageFormat : List Nat → Option Nat
  CreateImageWrapper : Nat → Option (List Nat → ImageWrapper)
  GetBaseFilename : String → String

/-- The function `LoadImageFromDisk`: `none` stands for the returned `nullptr`. -/
def LoadImageFromDisk (H : Host) (ImagePath : String) : Option UTexture2D :=
  if !H.FileExists ImagePath then
    none
  else
    match H.LoadFileToArray ImagePath with
    | none => none
    | some FileData =>
      match H.DetectImageFormat FileData with
      | none => none
      | some ImageFormat =>
        match H.CreateImageWrapper ImageFormat with
        | none => none
        | some Wrapper =>
          match (Wrapper FileData).Raw with
          | none => none
          | some RawData =>
            CreateTexture RawData (Wrapper FileData).Width (Wrapper FileData).Height
              .PF_B8G8R8A8 ("T_" ++ H.GetBaseFilename ImagePath)

/-- The loop of `GetTexture` over the values stored under the key: the first
non-empty URI decides. -/
def GetTexture.loop (H : Host) : List String → Option UTexture2D
  | [] => none
  | TextureUri :: rest =>
    if TextureUri.length > 0 then LoadImageFromDisk H TextureUri
    else GetTexture.loop H rest

/-- The function `GetTexture`. -/
def GetTexture {R : Type} (H : Host) (MaterialAttributes : AttributeMap R) (Key : String) :
    Option UTexture2D :=
  GetTexture.loop H (MaterialAttributes.getStringArray Key)

/-- A `UMaterialInstanceDynamic`: its parent material and the texture
parameter values set on it (`none` is a null texture). -/
structure UMaterialInstanceDynamic where
  Parent : Nat
  TextureParameterValues : List (String × Option UTexture2D)
deriving DecidableEq, Repr

/-- The setter `UMaterialInstanceDynamic::SetTextureParameterValue`: overwrites the value
of an existing parameter of that name, otherwise adds the parameter. -/
def UMaterialInstanceDynamic.SetTextureParameterValue (m : UMaterialInstanceDynamic)
    (Name : String) (Value : Option UTexture2D) : UMaterialInstanceDynamic :=
  if m.TextureParameterValues.any (fun p => p.1 == Name) then
    { m with TextureParameterValues :=
        m.TextureParameterValues.map (fun p => if p.1 == Name then (Name, Value) else p) }
  else
    { m with TextureParameterValues := m.TextureParameterValues ++ [(Name, Value)] }

/-- The key loop of `CreateMaterial`. -/
def CreateMaterial.loop {R : Type} (H : Host) (MaterialAttributes : AttributeMap R) :
    List String → UMaterialInstanceDynamic → UMaterialInstanceDynamic
  | [], MaterialInstance => MaterialInstance
  | Key :: rest, MaterialInstance =>
    if Key = "diffuseMap" then
      CreateMaterial.loop H MaterialAttributes rest
        (MaterialInstance.SetTextureParameterValue Key (GetTexture H MaterialAttributes Key))
    else
      CreateMaterial.loop H MaterialAttributes rest MaterialInstance

/-- The function `CreateMaterial`. -/
def CreateMaterial {R : Type} (H : Host) (Parent : Nat) (MaterialAttributes : AttributeMap R) :
    UMaterialInstanceDynamic :=
  CreateMaterial.loop H MaterialAttributes MaterialAttributes.getKeys ⟨Parent, []⟩

/-! ## Mesh description -/

/-- A vertex instance (corner) of a mesh description together with its
attributes: the vertex it refers to, its normal and one UV coordinate per UV
channel. -/
structure FVertexInstance (R : Type) where
  VertexID : Nat
  Normal : FVector R
  UVs : List (FVector2D R)
deriving DecidableEq, Repr

/-- A polygon of a mesh description: its polygon group and its ordered
vertex instances. -/
structure FPolygon where
  PolygonGroupID : Nat
  VertexInstanceIDs : List Nat
deriving DecidableEq, Repr

/-- Modelled from the spec: `FMeshDescription` with the attributes registered
by `FStaticMeshAttributes` is engine code outside this repository.  Elements
are kept in creation order and the id of an element is its position: vertices
with their position attribute, vertex instances, polygon groups with their
material slot name (`none` is `NAME_None`) and polygons. -/
structure FMeshDescription (R : Type) where
  NumUVIndices : Nat
  VertexPositions : List (FVector R)
  VertexInstances : List (FVertexInstance R)
  PolygonGroupMaterialSlotNames : List (Option Nat)
  Polygons : List FPolygon
deriving DecidableEq, Repr

section Mesh

variable {R : Type} [Ring R]

/-- A freshly registered description: no elements, one UV channel. -/
def FMeshDescription.Register : FMeshDescription R :=
  ⟨1, [], [], [], []⟩

/-- The call `GetVertexInstanceUVs().SetNumIndices(n)`. -/
def FMeshDescription.SetNumUVIndices (d : FMeshDescription R) (n : Nat) : FMeshDescription R :=
  { d with
    NumUVIndices := n
    VertexInstances := d.VertexInstances.map fun vi =>
      { vi with UVs := vi.UVs.take n ++ List.replicate (n - vi.UVs.length) ⟨0, 0⟩ } }

/-- The call `CreateVertex`: a new vertex at the default position; returns its id. -/
def FMeshDescription.CreateVertex (d : FMeshDescription R) : FMeshDescription R × Nat :=
  ({ d with VertexPositions := d.VertexPositions ++ [⟨0, 0, 0⟩] }, d.VertexPositions.length)

/-- The assignment `VertexPositions[VertexID] = Position`. -/
def FMeshDescription.SetVertexPosition (d : FMeshDescription R) (VertexID : Nat)
    (Position : FVector R) : Except Err (FMeshDescription R) :=
  if VertexID < d.VertexPositions.length then
    .ok { d with VertexPositions := d.VertexPositions.set VertexID Position }
  else .error .outOfBounds

/-- The call `CreateVertexInstance(FVertexID(VertexIndex))`: an id that addresses no
vertex fails the range check of the mesh description.  The new instance has
default attributes; returns its id. -/
def FMeshDescription.CreateVertexInstance (d : FMeshDescription R) (VertexIndex : Nat) :
    Except Err (FMeshDescription R × Nat) :=
  if VertexIndex < d.VertexPositions.length then
    .ok ({ d with VertexInstances := d.VertexInstances ++
            [⟨VertexIndex, ⟨0, 0, 0⟩, List.replicate d.NumUVIndices ⟨0, 0⟩⟩] },
         d.VertexInstances.length)
  else .error .invalidElement

/-- The assignment `Normals[InstanceId] = Normal`. -/
def FMeshDescription.SetNormal (d : FMeshDescription R) (InstanceId : Nat)
    (Normal : FVector R) : Except Err (FMeshDescription R) :=
  match d.VertexInstances[InstanceId]? with
  | some vi =>
    .ok { d with VertexInstances := d.VertexInstances.set InstanceId { vi with Normal := Normal } }
  | none => .error .outOfBounds

/-- The call `VertexUVs.Set(InstanceId, Channel, UV)`. -/
def FMeshDescription.SetUV (d : FMeshDescription R) (InstanceId Channel : Nat)
    (UV : FVector2D R) : Except Err (FMeshDescription R) :=
  match d.VertexInstances[InstanceId]? with
  | some vi =>
    if Channel < vi.UVs.length then
      .ok { d with VertexInstances :=
              d.VertexInstances.set InstanceId { vi with UVs := vi.UVs.set Channel UV } }
    else .error .outOfBounds
  | none => .error .outOfBounds

/-- The call `CreatePolygonGroup`: a new group without a material slot name; returns
its id. -/
def FMeshDescription.CreatePolygonGroup (d : FMeshDescription R) : FMeshDescription R × Nat :=
  ({ d with PolygonGroupMaterialSlotNames := d.PolygonGroupMaterialSlotNames ++ [none] },
   d.PolygonGroupMaterialSlotNames.length)

/-- The assignment `GetPolygonGroupMaterialSlotNames()[PolygonGroupId] = MaterialSlot`. -/
def FMeshDescription.SetMaterialSlotName (d : FMeshDescription R) (PolygonGroupId : Nat)
    (MaterialSlot : Nat) : Except Err (FMeshDescription R) :=
  if PolygonGroupId < d.PolygonGroupMaterialSlotNames.length then
    .ok { d with PolygonGroupMaterialSlotNames :=
            d.PolygonGroupMaterialSlotNames.set PolygonGroupId (some MaterialSlot) }
  else .error .outOfBounds

/-- The call `CreatePolygon(PolygonGroupId, VertexInstances)`: the polygon keeps the
vertex instances in the order given. -/
def FMeshDescription.CreatePolygon (d : FMeshDescription R) (PolygonGroupId : Nat)
    (VertexInstanceIDs : List Nat) : FMeshDescription R :=
  { d with Polygons := d.Polygons ++ [⟨PolygonGroupId, VertexInstanceIDs⟩] }

/-- A `UStaticMesh`: its material slots and the mesh description it was built
from (absent until `BuildFromMeshDescriptions`). -/
structure UStaticMesh (R : Type) where
  StaticMaterials : List UMaterialInstanceDynamic
  Description : Option (FMeshDescription R)
deriving DecidableEq, Repr

/-- The call `UStaticMesh::AddMaterial`: appends a material slot and returns its slot
name, which is modelled by the position of the slot. -/
def UStaticMesh.AddMaterial (m : UStaticMesh R) (Material : UMaterialInstanceDynamic) :
    UStaticMesh R × Nat :=
  ({ m with StaticMaterials := m.StaticMaterials ++ [Material] }, m.StaticMaterials.length)

/-- The call `UStaticMesh::BuildFromMeshDescriptions` with a single description. -/
def UStaticMesh.BuildFromMeshDescriptions (m : UStaticMesh R) (d : FMeshDescription R) :
    UStaticMesh R :=
  { m with Description := some d }

/-- The arguments of `addMesh`; each `(pointer, size)` pair is one list, the
per-UV-set pairs are lists of lists. -/
structure MeshInput (R : Type) where
  name : String
  prototypeId : Int
  vtx : List R
  nrm : List R
  faceVertexCounts : List Nat
  vertexIndices : List Nat
  normalIndices : List Nat
  uvs : List (List R)
  uvCounts : List (List Nat)
  uvIndices : List (List Nat)
  uvSets : Nat
  faceRanges : List Nat
  materials : List (AttributeMap R)

/-- Body of the vertex loop of `addMesh` for `VertexIndex = 3 * i`. -/
def addMesh.vertexBody (inp : MeshInput R) (i : Nat) (Description : FMeshDescription R) :
    Except Err (FMeshDescription R) := do
  let VertexIndex := 3 * i
  let (Description, VertexID) := Description.CreateVertex
  let x ← readAt inp.vtx VertexIndex
  let y ← readAt inp.vtx (VertexIndex + 2)
  let z ← readAt inp.vtx (VertexIndex + 1)
  Description.SetVertexPosition VertexID ((FVector.mk x y z).scale 100)

/-- Body of the UV set loop for the corner `InstanceId` at running offset
`Offset = BaseVertexIndex + FaceVertexIndex`. -/
def addMesh.uvBody (inp : MeshInput R) (Offset InstanceId UVSet : Nat)
    (Description : FMeshDescription R) : Except Err (FMeshDescription R) := do
  let Indices ← readAt inp.uvIndices UVSet
  if Indices.length > 0 then
    let Index ← readAt Indices Offset
    let UVIndex := wrap32 (Index * 2)
    let Coordinates ← readAt inp.uvs UVSet
    let u ← readAt Coordinates UVIndex
    let v ← readAt Coordinates (wrap32 (UVIndex + 1))
    Description.SetUV InstanceId 0 ⟨u, -v⟩
  else
    pure Description

/-- Body of the corner loop of one face; the state is the description and the
`PolygonVertexInstances` array of the face. -/
def addMesh.cornerBody (inp : MeshInput R) (BaseVertexIndex FaceVertexIndex : Nat)
    (s : FMeshDescription R × List Nat) : Except Err (FMeshDescription R × List Nat) := do
  let (Description, PolygonVertexInstances) := s
  let VertexIndex ← readAt inp.vertexIndices (BaseVertexIndex + FaceVertexIndex)
  let Index ← readAt inp.normalIndices (BaseVertexIndex + FaceVertexIndex)
  let NormalIndex := wrap32 (Index * 3)
  let (Description, InstanceId) ← Description.CreateVertexInstance VertexIndex
  let PolygonVertexInstances := PolygonVertexInstances ++ [InstanceId]
  let x ← readAt inp.nrm NormalIndex
  let y ← readAt inp.nrm (wrap32 (NormalIndex + 2))
  let z ← readAt inp.nrm (wrap32 (NormalIndex + 1))
  let Description ← Description.SetNormal InstanceId ⟨x, y, z⟩
  let Description ←
    forRange (addMesh.uvBody inp (BaseVertexIndex + FaceVertexIndex) InstanceId) 0 inp.uvSets
      Description
  pure (Description, PolygonVertexInstances)

/-- State of the polygon loops of `addMesh`. -/
structure Assembly (R : Type) where
  Mesh : UStaticMesh R
  Description : FMeshDescription R
  BaseVertexIndex : Nat
  PolygonGroupStartIndex : Nat

/-- Body of the face loop of one polygon group. -/
def addMesh.faceBody (inp : MeshInput R) (PolygonGroupId FaceIndex : Nat) (s : Assembly R) :
    Except Err (Assembly R) := do
  let FaceVertexCount ← readAt inp.faceVertexCounts (s.PolygonGroupStartIndex + FaceIndex)
  let (Description, PolygonVertexInstances) ←
    forRange (addMesh.cornerBody inp s.BaseVertexIndex) 0 FaceVertexCount (s.Description, [])
  let Description := Description.CreatePolygon PolygonGroupId PolygonVertexInstances
  pure { s with Description := Description, BaseVertexIndex := s.BaseVertexIndex + FaceVertexCount }

/-- Body of the polygon group loop. -/
def addMesh.groupBody (H : Host) (OpaqueParent : Nat) (inp : MeshInput R)
    (PolygonGroupIndex : Nat) (s : Assembly R) : Except Err (Assembly R) := do
  let PolygonFaceCount ← readAt inp.faceRanges PolygonGroupIndex
  let (Description, PolygonGroupId) := s.Description.CreatePolygonGroup
  let MaterialAttributes ← readAt inp.materials 0
  let MaterialInstance := CreateMaterial H OpaqueParent MaterialAttributes
  let (Mesh, MaterialSlot) := s.Mesh.AddMaterial MaterialInstance
  let Description ← Description.SetMaterialSlotName PolygonGroupId MaterialSlot
  let s ← forRange (addMesh.faceBody inp PolygonGroupId) 0 PolygonFaceCount
    { s with Mesh := Mesh, Description := Description }
  pure { s with PolygonGroupStartIndex := s.PolygonGroupStartIndex + PolygonFaceCount }

/-- The part of `addMesh` that builds the mesh: everything up to and including
`BuildFromMeshDescriptions`.  The vertex loop advances `VertexIndex` in steps
of three while it is below `vtxSize`, that is, `(vtxSize + 2) / 3` times. -/
def addMesh.assemble (H : Host) (OpaqueParent : Nat) (inp : MeshInput R) :
    Except Err (UStaticMesh R) := do
  let Mesh : UStaticMesh R := ⟨[], none⟩
  let Description := (FMeshDescription.Register : FMeshDescription R).SetNumUVIndices inp.uvSets
  let Description ← forRange (addMesh.vertexBody inp) 0 ((inp.vtx.length + 2) / 3) Description
  let s ← forRange (addMesh.groupBody H OpaqueParent inp) 0 inp.faceRanges.length
    ⟨Mesh, Description, 0, 0⟩
  pure (s.Mesh.BuildFromMeshDescriptions s.Description)

end Mesh

/-! ## Transforms -/

/-- The engine's `FPlane`, used by the code as a row of four numbers. -/
structure FPlane (R : Type) where
  X : R
  Y : R
  Z : R
  W : R
deriving DecidableEq, Repr

/-- The engine's `FQuat`. -/
structure FQuat (R : Type) where
  X : R
  Y : R
  Z : R
  W : R
deriving DecidableEq, Repr

/-- The engine's `FTransform` as built by `FTransform(Rotation, Translation, Scale)`. -/
structure FTransform (R : Type) where
  Rotation : FQuat R
  Translation : FVector R
  Scale3D : FVector R
deriving DecidableEq, Repr

/-- The engine's `FMatrix`: `M i j` is `M[i][j]`. -/
structure FMatrix (R : Type) where
  M : Fin 4 → Fin 4 → R

/-- Component `j` of a plane. -/
def FPlane.get {R : Type} (p : FPlane R) (j : Fin 4) : R :=
  match j with
  | 0 => p.X
  | 1 => p.Y
  | 2 => p.Z
  | 3 => p.W

/-- The constructor `FMatrix(InX, InY, InZ, InW)`: the planes are the rows. -/
def FMatrix.ofPlanes {R : Type} (InX InY InZ InW : FPlane R) : FMatrix R :=
  ⟨fun i j =>
    match i with
    | 0 => InX.get j
    | 1 => InY.get j
    | 2 => InZ.get j
    | 3 => InW.get j⟩

/-- The function `GetRow`: the entries `Index`, `Index + 4`, `Index + 8`, `Index + 12` of the
flat array of 16 numbers. -/
def GetRow {R : Type} (Mat : Fin 16 → R) (Index : Fin 4) : FPlane R :=
  ⟨Mat ⟨Index.val + 0 * 4, by omega⟩, Mat ⟨Index.val + 1 * 4, by omega⟩,
   Mat ⟨Index.val + 2 * 4, by omega⟩, Mat ⟨Index.val + 3 * 4, by omega⟩⟩

/-- Modelled from the spec: the engine's `FMath::Sqrt` and `FMath::InvSqrt`
are outside this repository and are left as parameters. -/
structure FMath (R : Type) where
  Sqrt : R → R
  InvSqrt : R → R

section Transform

variable {R : Type} [LinearOrderedField R]

/-- The engine's `SMALL_NUMBER`. -/
def SMALL_NUMBER : R := 1 / 100000000

/-- The engine's `KINDA_SMALL_NUMBER`. -/
def KINDA_SMALL_NUMBER : R := 1 / 10000

/-- The engine's `FMath::Sign`. -/
def FMath.Sign (x : R) : Int :=
  if x > 0 then 1 else if x < 0 then -1 else 0

/-- The engine's `FMath::FloatSelect`. -/
def FMath.FloatSelect (Comparand ValueGEZero ValueLTZero : R) : R :=
  if Comparand ≥ 0 then ValueGEZero else ValueLTZero

/-- Modelled from the spec: `FMatrix::Determinant` is engine code outside this
repository; it is the determinant of the full 4x4 matrix, expanded along the
first column. -/
def FMatrix.Determinant (A : FMatrix R) : R :=
  A.M 0 0 * (
      A.M 1 1 * (A.M 2 2 * A.M 3 3 - A.M 2 3 * A.M 3 2) -
      A.M 2 1 * (A.M 1 2 * A.M 3 3 - A.M 1 3 * A.M 3 2) +
      A.M 3 1 * (A.M 1 2 * A.M 2 3 - A.M 1 3 * A.M 2 2)) -
    A.M 1 0 * (
      A.M 0 1 * (A.M 2 2 * A.M 3 3 - A.M 2 3 * A.M 3 2) -
      A.M 2 1 * (A.M 0 2 * A.M 3 3 - A.M 0 3 * A.M 3 2) +
      A.M 3 1 * (A.M 0 2 * A.M 2 3 - A.M 0 3 * A.M 2 2)) +
    A.M 2 0 * (
      A.M 0 1 * (A.M 1 2 * A.M 3 3 - A.M 1 3 * A.M 3 2) -
      A.M 1 1 * (A.M 0 2 * A.M 3 3 - A.M 0 3 * A.M 3 2) +
      A.M 3 1 * (A.M 0 2 * A.M 1 3 - A.M 0 3 * A.M 1 2)) -
    A.M 3 0 * (
      A.M 0 1 * (A.M 1 2 * A.M 2 3 - A.M 1 3 * A.M 2 2) -
      A.M 1 1 * (A.M 0 2 * A.M 2 3 - A.M 0 3 * A.M 2 2) +
      A.M 2 1 * (A.M 0 2 * A.M 1 3 - A.M 0 3 * A.M 1 2))

/-- Sum of the squares of the first three entries of row `i`. -/
def FMatrix.SquareSum (A : FMatrix R) (i : Fin 4) : R :=
  A.M i 0 * A.M i 0 + A.M i 1 * A.M i 1 + A.M i 2 * A.M i 2

/-- Modelled from the spec: `FMatrix::GetMatrixWithoutScale` is engine code
outside this repository (scale is stripped from the upper 3x3).  Each of the
first three rows whose square sum reaches the tolerance `SMALL_NUMBER` has its
first three entries multiplied by the inverse square root of that sum. -/
def FMatrix.GetMatrixWithoutScale (E : FMath R) (A : FMatrix R) : FMatrix R :=
  ⟨fun i j =>
    if i.val < 3 ∧ j.val < 3 then
      A.M i j * FMath.FloatSelect (A.SquareSum i - SMALL_NUMBER) (E.InvSqrt (A.SquareSum i)) 1
    else A.M i j⟩

/-- Modelled from the spec: `FMatrix::GetScaleVector` is engine code outside
this repository (the scale of the upper 3x3).  Component `i` is the square
root of the square sum of row `i` when that exceeds `SMALL_NUMBER`, else zero. -/
def FMatrix.GetScaleVector (E : FMath R) (A : FMatrix R) : FVector R :=
  let Scale := fun i : Fin 4 =>
    if A.SquareSum i > SMALL_NUMBER then E.Sqrt (A.SquareSum i) else 0
  ⟨Scale 0, Scale 1, Scale 2⟩

/-- The engine's `FMatrix::operator*(float)`: every entry is scaled. -/
def FMatrix.scale (A : FMatrix R) (Other : R) : FMatrix R :=
  ⟨fun i j => A.M i j * Other⟩

/-- The assignment `A.M[i][j] = x`. -/
def FMatrix.set (A : FMatrix R) (i j : Fin 4) (x : R) : FMatrix R :=
  ⟨fun i' j' => if i' = i ∧ j' = j then x else A.M i' j'⟩

/-- The engine's `FVector::IsNearlyZero` applied to the first three entries of
row `i`, with the default tolerance. -/
def FMatrix.AxisIsNearlyZero (A : FMatrix R) (i : Fin 4) : Bool :=
  decide (|A.M i 0| ≤ KINDA_SMALL_NUMBER ∧ |A.M i 1| ≤ KINDA_SMALL_NUMBER ∧
    |A.M i 2| ≤ KINDA_SMALL_NUMBER)

/-- The unit-length test on row `i` made by the quaternion constructor. -/
def FMatrix.AxisIsUnit (A : FMatrix R) (i : Fin 4) : Bool :=
  decide (|1 - A.SquareSum i| ≤ KINDA_SMALL_NUMBER)

/-- The successor table `nxt` of the quaternion constructor. -/
def FQuat.nxt : Fin 4 → Fin 4
  | 0 => 1
  | 1 => 2
  | _ => 0

/-- Modelled from the spec: `FMatrix::ToQuat` (the constructor
`FQuat(const FMatrix&)`) is engine code outside this repository (the rotation
of the matrix as a quaternion).  It answers the identity quaternion when one
of the three axes is nearly zero or not of unit length, and otherwise
extracts the quaternion by the trace method. -/
def FMatrix.ToQuat (E : FMath R) (A : FMatrix R) : FQuat R :=
  if A.AxisIsNearlyZero 0 || A.AxisIsNearlyZero 1 || A.AxisIsNearlyZero 2 then
    ⟨0, 0, 0, 1⟩
  else if !(A.AxisIsUnit 0 && A.AxisIsUnit 1 && A.AxisIsUnit 2) then
    ⟨0, 0, 0, 1⟩
  else
    let tr := A.M 0 0 + A.M 1 1 + A.M 2 2
    if tr > 0 then
      let InvS := E.InvSqrt (tr + 1)
      let s := (1 / 2) * InvS
      ⟨(A.M 1 2 - A.M 2 1) * s, (A.M 2 0 - A.M 0 2) * s, (A.M 0 1 - A.M 1 0) * s,
        (1 / 2) * (1 / InvS)⟩
    else
      let i0 : Fin 4 := if A.M 1 1 > A.M 0 0 then 1 else 0
      let i : Fin 4 := if A.M 2 2 > A.M i0 i0 then 2 else i0
      let j := FQuat.nxt i
      let k := FQuat.nxt j
      let InvS := E.InvSqrt (A.M i i - A.M j j - A.M k k + 1)
      let s := (1 / 2) * InvS
      let qt : Fin 4 → R := fun c =>
        if c = k then (A.M i k + A.M k i) * s
        else if c = j then (A.M i j + A.M j i) * s
        else if c = 3 then (A.M j k - A.M k j) * s
        else (1 / 2) * (1 / InvS)
      ⟨qt 0, qt 1, qt 2, qt 3⟩

end Transform

/-! ## The callback object -/


/-- Modelled from the spec: `prt::Status` is an enumeration of the generation
engine's SDK, outside this repository; these are the success value and some of
its error values. -/
inductive Status where
  | STATUS_OK
  | STATUS_UNSPECIFIED_ERROR
  | STATUS_OUT_OF_MEM
  | STATUS_ILLEGAL_VALUE
  | STATUS_KEY_NOT_FOUND
deriving DecidableEq, Repr

/-- Modelled from the spec: the declaration of the class `UnrealCallbacks`
(`UnrealCallbacks.h`) is not among the sources.  Its members are those the
code uses: the attribute map under construction, the parent material, the
registry of prototype meshes and the instance transforms per mesh.  `Meshes`
is the heap of the `UStaticMesh` objects created so far; a mesh pointer is an
index into it. -/
structure UnrealCallbacks (R : Type) where
  AttributeMapBuilder : AttributeMap R
  OpaqueParent : Nat
  Meshes : List (UStaticMesh R)
  PrototypeMap : TMap Int Nat
  Instances : TMap Nat (List (FTransform R))

section Callbacks

/-- The callback `UnrealCallbacks::addMesh`.  The result is the outcome of the call together
with the state of the object when the call ends: an aborted call has not
reached `PrototypeMap.Add`. -/
def UnrealCallbacks.addMesh {R : Type} [Ring R] (H : Host) (self : UnrealCallbacks R)
    (inp : MeshInput R) : Except Err Unit × UnrealCallbacks R :=
  match addMesh.assemble H self.OpaqueParent inp with
  | .error e => (.error e, self)
  | .ok Mesh =>
    (.ok (),
      { self with
        Meshes := self.Meshes ++ [Mesh]
        PrototypeMap := TMap.Add self.PrototypeMap inp.prototypeId self.Meshes.length })

/-- The transform that `addInstance` computes from the flat array of 16
numbers (the local variable `Transform`). -/
def addInstance.Transform {R : Type} [LinearOrderedField R] (E : FMath R)
    (transform : Fin 16 → R) : FTransform R :=
  let TransformationMat :=
    FMatrix.ofPlanes (GetRow transform 0) (GetRow transform 1) (GetRow transform 2)
      (GetRow transform 3)
  let SignumDet : Int := FMath.Sign TransformationMat.Determinant
  let MatWithoutScale := TransformationMat.GetMatrixWithoutScale E
  let MatWithoutScale := MatWithoutScale.scale (SignumDet : R)
  let MatWithoutScale := MatWithoutScale.set 3 3 1
  let CERotation := MatWithoutScale.ToQuat E
  let CEScale := (TransformationMat.GetScaleVector E).scale (SignumDet : R)
  let Rotation : FQuat R := ⟨CERotation.X, CERotation.Z, CERotation.Y, CERotation.W⟩
  let Scale : FVector R := ⟨CEScale.X, CEScale.Y, CEScale.Z⟩
  let Translation :=
    (FVector.mk (TransformationMat.M 0 3) (TransformationMat.M 2 3)
      (TransformationMat.M 1 3)).scale 100
  ⟨Rotation, Translation, Scale⟩

/-- The callback `UnrealCallbacks::addInstance`, with `check` as in a build that keeps
checks.  The result is the outcome of the call together with the state of the
object when the call ends. -/
def UnrealCallbacks.addInstance {R : Type} [LinearOrderedField R] (E : FMath R)
    (self : UnrealCallbacks R) (prototypeId : Int) (transform : Fin 16 → R) :
    Except Err Unit × UnrealCallbacks R :=
  if !TMap.Contains self.PrototypeMap prototypeId then
    (.error .checkFailed, self)
  else
    let Transform := addInstance.Transform E transform
    match TMap.Find self.PrototypeMap prototypeId with
    | none => (.error .checkFailed, self)
    | some PrototypeMesh =>
      let (Instances, Array) := TMap.FindOrAdd self.Instances PrototypeMesh []
      (.ok (), { self with Instances := TMap.Add Instances PrototypeMesh (Array ++ [Transform]) })

/-- The callback `UnrealCallbacks::attrBool`. -/
def UnrealCallbacks.attrBool {R : Type} (self : UnrealCallbacks R) (_isIndex : Nat)
    (_shapeID : Int) (key : String) (value : Bool) : Status × UnrealCallbacks R :=
  (.STATUS_OK, { self with AttributeMapBuilder := self.AttributeMapBuilder.set key (.bool value) })

/-- The callback `UnrealCallbacks::attrFloat`. -/
def UnrealCallbacks.attrFloat {R : Type} (self : UnrealCallbacks R) (_isIndex : Nat)
    (_shapeID : Int) (key : String) (value : R) : Status × UnrealCallbacks R :=
  (.STATUS_OK, { self with AttributeMapBuilder := self.AttributeMapBuilder.set key (.float value) })

/-- The callback `UnrealCallbacks::attrString`. -/
def UnrealCallbacks.attrString {R : Type} (self : UnrealCallbacks R) (_isIndex : Nat)
    (_shapeID : Int) (key : String) (value : String) : Status × UnrealCallbacks R :=
  (.STATUS_OK,
    { self with AttributeMapBuilder := self.AttributeMapBuilder.set key (.string value) })

/-- The callback `UnrealCallbacks::attrBoolArray`; `(values, size)` is one list. -/
def UnrealCallbacks.attrBoolArray {R : Type} (self : UnrealCallbacks R) (_isIndex : Nat)
    (_shapeID : Int) (key : String) (values : List Bool) : Status × UnrealCallbacks R :=
  (.STATUS_OK,
    { self with AttributeMapBuilder := self.AttributeMapBuilder.set key (.boolArray values) })

/-- The callback `UnrealCallbacks::attrFloatArray`; `(values, size)` is one list. -/
def UnrealCallbacks.attrFloatArray {R : Type} (self : UnrealCallbacks R) (_isIndex : Nat)
    (_shapeID : Int) (key : String) (values : List R) : Status × UnrealCallbacks R :=
  (.STATUS_OK,
    { self with AttributeMapBuilder := self.AttributeMapBuilder.set key (.floatArray values) })

/-- The callback `UnrealCallbacks::attrStringArray`; `(values, size)` is one list. -/
def UnrealCallbacks.attrStringArray {R : Type} (self : UnrealCallbacks R) (_isIndex : Nat)
    (_shapeID : Int) (key : String) (values : List String) : Status × UnrealCallbacks R :=
  (.STATUS_OK,
    { self with AttributeMapBuilder := self.AttributeMapBuilder.set key (.stringArray values) })

end Callbacks

/-! ## Vocabulary of the statements about `addMesh` -/

section MeshVocabulary

variable {R : Type} [Ring R]

/-- Number of corners of the faces before face `j`: the value of
`BaseVertexIndex` when face `j` is reached. -/
def cornerOffset (inp : MeshInput R) (j : Nat) : Nat := (inp.faceVertexCounts.take j).sum

/-- Number of faces of the groups before group `g`: the value of
`PolygonGroupStartIndex` when group `g` is reached. -/
def faceStart (inp : MeshInput R) (g : Nat) : Nat := (inp.faceRanges.take g).sum

/-- The vertex binding and the normal that the arrays prescribe for the
corner at running offset `o`, with the index arithmetic of the code. -/
def CornerAt (inp : MeshInput R) (o : Nat) (vi : FVertexInstance R) : Prop :=
  inp.vertexIndices[o]? = some vi.VertexID ∧
  ∃ n, inp.normalIndices[o]? = some n ∧
    inp.nrm[wrap32 (n * 3)]? = some vi.Normal.X ∧
    inp.nrm[wrap32 (wrap32 (n * 3) + 2)]? = some vi.Normal.Y ∧
    inp.nrm[wrap32 (wrap32 (n * 3) + 1)]? = some vi.Normal.Z

/-- A corner as recorded in a description with `nv` vertices and `nuv` UV
channels. -/
def GoodCorner (inp : MeshInput R) (nv nuv o : Nat) (vi : FVertexInstance R) : Prop :=
  CornerAt inp o vi ∧ vi.UVs.length = nuv ∧ vi.VertexID < nv

/-- During the UV loop of a corner the description differs from `d0` only in
the newest vertex instance, whose vertex, normal and number of UV channels
stay fixed. -/
def UVStep (d0 : FMeshDescription R) (pre : List (FVertexInstance R)) (v : Nat) (nm : FVector R)
    (len : Nat) (d : FMeshDescription R) : Prop :=
  ∃ vi : FVertexInstance R, d = { d0 with VertexInstances := pre ++ [vi] } ∧
    vi.VertexID = v ∧ vi.Normal = nm ∧ vi.UVs.length = len

/-- Invariant of the polygon loops when `j` faces have been consumed. -/
structure FaceInv (inp : MeshInput R) (V : List (FVector R)) (j : Nat) (s : Assembly R) :
    Prop where
  base : s.BaseVertexIndex = cornerOffset inp j
  nvi : s.Description.VertexInstances.length = cornerOffset inp j
  npoly : s.Description.Polygons.length = j
  pos : s.Description.VertexPositions = V
  nuv : s.Description.NumUVIndices = inp.uvSets
  corners : ∀ o, o < cornerOffset inp j → ∃ vi, s.Description.VertexInstances[o]? = some vi ∧
    GoodCorner inp V.length inp.uvSets o vi
  polys : ∀ j', j' < j → ∃ n p, inp.faceVertexCounts[j']? = some n ∧
    s.Description.Polygons[j']? = some p ∧
    p.VertexInstanceIDs = List.range' (cornerOffset inp j') n

/-- Invariant of the polygon group loop when `g` groups have been consumed. -/
structure GroupInv (H : Host) (OpaqueParent : Nat) (inp : MeshInput R) (V : List (FVector R))
    (g : Nat) (s : Assembly R) : Prop where
  pgsi : s.PolygonGroupStartIndex = faceStart inp g
  face : FaceInv inp V (faceStart inp g) s
  nmat : s.Mesh.StaticMaterials.length = g
  nslot : s.Description.PolygonGroupMaterialSlotNames.length = g
  undesc : s.Mesh.Description = none
  mats : ∀ g', g' < g → ∃ m0, inp.materials[0]? = some m0 ∧
    s.Mesh.StaticMaterials[g']? = some (CreateMaterial H OpaqueParent m0) ∧
    s.Description.PolygonGroupMaterialSlotNames[g']? = some (some g')
  groups : ∀ g', g' < g → ∃ n, inp.faceRanges[g']? = some n ∧
    ∀ k, k < n → ∃ p, s.Description.Polygons[faceStart inp g' + k]? = some p ∧
      p.PolygonGroupID = g'

/-- The vertex pool that the vertex loop builds from `vtx`. -/
def VertexPool (inp : MeshInput R) (V : List (FVector R)) : Prop :=
  V.length = (inp.vtx.length + 2) / 3 ∧
  ∀ i, i < V.length → ∃ x y z, inp.vtx[3 * i]? = some x ∧ inp.vtx[3 * i + 2]? = some y ∧
    inp.vtx[3 * i + 1]? = some z ∧ V[i]? = some ((FVector.mk x y z).scale 100)

end MeshVocabulary

/-- The mesh registered under a prototype id, read through `PrototypeMap` and
the heap of meshes. -/
def UnrealCallbacks.PrototypeMesh {R : Type} (self : UnrealCallbacks R) (prototypeId : Int) :
    Option (UStaticMesh R) :=
  (TMap.Find self.PrototypeMap prototypeId).bind fun Mesh => self.Meshes[Mesh]?

/-- The data-model invariants of the arrays passed to `addMesh`: array sizes
that fit together and indices that stay inside the arrays they address.  The
arrays of per-UV-set arrays have one entry per UV set. -/
structure MeshInput.WellFormed {R : Type} (inp : MeshInput R) : Prop where
  vtx3 : 3 ∣ inp.vtx.length
  nrm3 : 3 ∣ inp.nrm.length
  faces : inp.faceRanges.sum = inp.faceVertexCounts.length
  nvertexIndices : inp.vertexIndices.length = inp.faceVertexCounts.sum
  nnormalIndices : inp.normalIndices.length = inp.faceVertexCounts.sum
  nuvIndexSets : inp.uvIndices.length = inp.uvSets
  nuvSets : inp.uvs.length = inp.uvSets
  nuvIndices : ∀ (s : Nat) (idx : List Nat), inp.uvIndices[s]? = some idx → idx ≠ [] →
    idx.length = inp.faceVertexCounts.sum
  vertexRange : ∀ v ∈ inp.vertexIndices, v < inp.vtx.length / 3
  normalRange : ∀ n ∈ inp.normalIndices, n < inp.nrm.length / 3
  uvRange : ∀ (s : Nat) (idx : List Nat) (co : List R), inp.uvIndices[s]? = some idx →
    inp.uvs[s]? = some co → ∀ i ∈ idx, i < co.length / 2
  material : inp.faceRanges ≠ [] → inp.materials ≠ []

/-! ## Sample data -/

/-- A host without any file. -/
def sampleHost : Host :=
  ⟨fun _ => false, fun _ => none, fun _ => none, fun _ => none, fun s => s⟩

/-- A callback object that has not registered anything yet. -/
def emptyCallbacks (R : Type) : UnrealCallbacks R :=
  ⟨⟨[]⟩, 0, [], [], []⟩

/-- The triangle of the specification's example: three vertices, one face
`[0, 1, 2]`, one group of size 1. -/
def triangle (R : Type) [Ring R] : MeshInput R :=
  { name := "triangle"
    prototypeId := 7
    vtx := [0, 0, 0, 1, 0, 0, 0, 1, 0]
    nrm := [0, 0, 1]
    faceVertexCounts := [3]
    vertexIndices := [0, 1, 2]
    normalIndices := [0, 0, 0]
    uvs := []
    uvCounts := []
    uvIndices := []
    uvSets := 0
    faceRanges := [1]
    materials := [⟨[]⟩] }

/-- A quad and a triangle in two face groups, with one UV set and one
material attribute map per group. -/
def twoGroups : MeshInput Int :=
  { name := "twoGroups"
    prototypeId := 8
    vtx := [0, 0, 0, 1, 0, 0, 1, 2, 0, 0, 2, 0, 0, 0, 3]
    nrm := [0, 0, 1, 0, 1, 0]
    faceVertexCounts := [4, 3]
    vertexIndices := [0, 1, 2, 3, 0, 3, 4]
    normalIndices := [0, 0, 0, 0, 1, 1, 1]
    uvs := [[0, 0, 1, 0, 1, 1, 0, 1]]
    uvCounts := [[4, 3]]
    uvIndices := [[0, 1, 2, 3, 0, 3, 2]]
    uvSets := 1
    faceRanges := [1, 1]
    materials := [⟨[("diffuseMap", .stringArray ["wall.png"])]⟩, ⟨[("opacity", .float 1)]⟩] }

/-- The triangle with two UV sets: set 0 holds the coordinates `(1, 2)`,
`(3, 4)`, `(5, 6)` and set 1 the coordinates `(7, 8)`, `(9, 10)`, `(11, 12)`. -/
def twoUVSets : MeshInput Int :=
  { name := "twoUVSets"
    prototypeId := 9
    vtx := [0, 0, 0, 1, 0, 0, 0, 1, 0]
    nrm := [0, 0, 1]
    faceVertexCounts := [3]
    vertexIndices := [0, 1, 2]
    normalIndices := [0, 0, 0]
    uvs := [[1, 2, 3, 4, 5, 6], [7, 8, 9, 10, 11, 12]]
    uvCounts := [[3], [3]]
    uvIndices := [[0, 1, 2], [2, 1, 0]]
    uvSets := 2
    faceRanges := [1]
    materials := [⟨[]⟩] }

/-- A normal array of `4294967301` numbers: zeros, followed by the normal
`(1, 2, 3)` at the positions `4294967298 .. 4294967300`. -/
def hugeNrm : List Int := List.replicate 4294967298 0 ++ [1, 2, 3]

/-- A triangle whose corners all use the last normal, number `1431655766`, of
`hugeNrm`. -/
def hugeNormals : MeshInput Int :=
  { name := "huge"
    prototypeId := 7
    vtx := [0, 0, 0, 1, 0, 0, 0, 1, 0]
    nrm := hugeNrm
    faceVertexCounts := [3]
    vertexIndices := [0, 1, 2]
    normalIndices := [1431655766, 1431655766, 1431655766]
    uvs := []
    uvCounts := []
    uvIndices := []
    uvSets := 0
    faceRanges := [1]
    materials := [⟨[]⟩] }

/-- The flat array of a pure translation by `(tx, ty, tz)`: identity in the
upper-left 3x3, the translation at the flat indices 12, 13, 14 and the
homogeneous entry 1. -/
def translationArray {R : Type} [Ring R] (tx ty tz : R) : Fin 16 → R :=
  fun i => [1, 0, 0, 0, 0, 1, 0, 0, 0, 0, 1, 0, tx, ty, tz, 1].getD i.val 0

/-- Square roots of rational numbers, exact on squares. -/
def sampleMath : FMath ℚ :=
  ⟨Rat.sqrt, fun x => 1 / Rat.sqrt x⟩

/-- The callback object after the triangle has been registered under the
prototype id 7. -/
def registered (R : Type) [Ring R] : UnrealCallbacks R :=
  ((emptyCallbacks R).addMesh sampleHost (triangle R)).2

/-! ## Vocabulary of the statements about the axis swap and the transform -/

/-- The Y/Z swap that `addMesh` applies to the triple read for a position or a
normal: `(x, y, z)` becomes `(x, z, y)`. -/
def FVector.swapYZ {R : Type} (v : FVector R) : FVector R :=
  ⟨v.X, v.Z, v.Y⟩

/-- The remap that `addInstance` applies to the rotation: `(x, y, z, w)`
becomes `(x, z, y, w)`. -/
def FQuat.swapYZ {R : Type} (q : FQuat R) : FQuat R :=
  ⟨q.X, q.Z, q.Y, q.W⟩

/-- The local variable `TransformationMat` of `addInstance`. -/
def addInstance.TransformationMat {R : Type} (transform : Fin 16 → R) : FMatrix R :=
  FMatrix.ofPlanes (GetRow transform 0) (GetRow transform 1) (GetRow transform 2)
    (GetRow transform 3)

/-- The matrix that `addInstance` hands to `ToQuat`: the final value of the
local variable `MatWithoutScale`. -/
def addInstance.RotationMat {R : Type} [LinearOrderedField R] (E : FMath R)
    (transform : Fin 16 → R) : FMatrix R :=
  (((addInstance.TransformationMat transform).GetMatrixWithoutScale E).scale
    ((FMath.Sign (addInstance.TransformationMat transform).Determinant : Int) : R)).set 3 3 1

/-- Three vertices and two face groups of size 0. -/
def emptyGroups : MeshInput Int :=
  { name := "emptyGroups"
    prototypeId := 5
    vtx := [0, 0, 0, 1, 0, 0, 0, 1, 0]
    nrm := []
    faceVertexCounts := []
    vertexIndices := []
    normalIndices := []
    uvs := []
    uvCounts := []
    uvIndices := []
    uvSets := 0
    faceRanges := [0, 0]
    materials := [⟨[]⟩] }

/-! ## Vocabulary of the statements about the attribute callbacks -/

/-- One call of an attribute callback with its arguments. -/
inductive AttrCall (R : Type) where
  | attrBool (isIndex : Nat) (shapeID : Int) (key : String) (value : Bool)
  | attrFloat (isIndex : Nat) (shapeID : Int) (key : String) (value : R)
  | attrString (isIndex : Nat) (shapeID : Int) (key : String) (value : String)
  | attrBoolArray (isIndex : Nat) (shapeID : Int) (key : String) (values : List Bool)
  | attrFloatArray (isIndex : Nat) (shapeID : Int) (key : String) (values : List R)
  | attrStringArray (isIndex : Nat) (shapeID : Int) (key : String) (values : List String)

/-- The key passed by a call. -/
def AttrCall.key {R : Type} : AttrCall R → String
  | .attrBool _ _ key _ => key
  | .attrFloat _ _ key _ => key
  | .attrString _ _ key _ => key
  | .attrBoolArray _ _ key _ => key
  | .attrFloatArray _ _ key _ => key
  | .attrStringArray _ _ key _ => key

/-- The value passed by a call. -/
def AttrCall.value {R : Type} : AttrCall R → AttrValue R
  | .attrBool _ _ _ value => .bool value
  | .attrFloat _ _ _ value => .float value
  | .attrString _ _ _ value => .string value
  | .attrBoolArray _ _ _ values => .boolArray values
  | .attrFloatArray _ _ _ values => .floatArray values
  | .attrStringArray _ _ _ values => .stringArray values

/-- Performs one call on the callback object. -/
def UnrealCallbacks.call {R : Type} (self : UnrealCallbacks R) :
    AttrCall R → Status × UnrealCallbacks R
  | .attrBool isIndex shapeID key value => self.attrBool isIndex shapeID key value
  | .attrFloat isIndex shapeID key value => self.attrFloat isIndex shapeID key value
  | .attrString isIndex shapeID key value => self.attrString isIndex shapeID key value
  | .attrBoolArray isIndex shapeID key values => self.attrBoolArray isIndex shapeID key values
  | .attrFloatArray isIndex shapeID key values => self.attrFloatArray isIndex shapeID key values
  | .attrStringArray isIndex shapeID key values =>
    self.attrStringArray isIndex shapeID key values

/-- Performs a sequence of calls in order; returns the statuses of the calls
and the final state. -/
def UnrealCallbacks.callAll {R : Type} (self : UnrealCallbacks R) :
    List (AttrCall R) → List Status × UnrealCallbacks R
  | [] => ([], self)
  | c :: cs =>
    ((self.call c).1 :: ((self.call c).2.callAll cs).1, ((self.call c).2.callAll cs).2)

/-- The value passed by the last call made with `key` in a sequence of calls,
and `init` when no call was made with that key. -/
def lastValue {R : Type} (key : String) (init : Option (AttrValue R)) (calls : List (AttrCall R)) :
    Option (AttrValue R) :=
  calls.foldl (fun acc c => if c.key = key then some c.value else acc) init

/-! ## Vocabulary of the statements about materials -/

/-- The texture bound to a texture parameter of a material instance; `none`
when the parameter has no value or has the null texture. -/
def UMaterialInstanceDynamic.Texture (m : UMaterialInstanceDynamic) (Name : String) :
    Option UTexture2D :=
  (TMap.Find m.TextureParameterValues Name).join

/-- An attribute map whose diffuse map refers to a file that the sample host
does not have, next to keys of other kinds. -/
def missingTexture : AttributeMap Int :=
  ⟨[("opacity", .float 1), ("diffuseMap", .stringArray ["", "missing.png"]),
    ("name", .string "wall")]⟩

end Vitruvio

/-! # Theorems -/

namespace Vitruvio

/-! ## Generic lemmas -/

theorem bind_ok {α β : Type} (x : Except Err α) (f : α → Except Err β) (b : β) :
    (x >>= f) = .ok b ↔ ∃ a, x = .ok a ∧ f a = .ok b := by
  cases x with
  | error e => simp [bind, Except.bind]
  | ok a => simp [bind, Except.bind]

theorem readAt_ok {α : Type} {xs : List α} {i : Nat} {a : α} :
    readAt xs i = .ok a ↔ xs[i]? = some a := by
  unfold readAt
  cases h : xs[i]? <;> simp

theorem readAt_of_lt {α : Type} (xs : List α) (i : Nat) (h : i < xs.length) :
    readAt xs i = .ok xs[i] := by
  rw [readAt_ok]; exact List.getElem?_eq_getElem h

theorem forRange_inv {σ : Type} (body : Nat → σ → Except Err σ) (P : Nat → σ → Prop) :
    ∀ (n lo : Nat) (s s' : σ), P lo s →
      (∀ i t t', lo ≤ i → i < lo + n → P i t → body i t = .ok t' → P (i + 1) t') →
      forRange body lo n s = .ok s' → P (lo + n) s' := by
  intro n
  induction n with
  | zero =>
    intro lo s s' h0 _ h
    simp only [forRange, Except.ok.injEq] at h
    subst h
    simpa using h0
  | succ n ih =>
    intro lo s s' h0 hstep h
    simp only [forRange] at h
    cases hb : body lo s with
    | error e => rw [hb] at h; cases h
    | ok t =>
      rw [hb] at h
      have h1 : P (lo + 1) t := hstep lo s t (le_refl _) (by omega) h0 hb
      have := ih (lo + 1) t s' h1 (fun i u u' hi hi' => hstep i u u' (by omega) (by omega)) h
      have e : lo + 1 + n = lo + (n + 1) := by omega
      rw [e] at this
      exact this

theorem forRange_ok {σ : Type} (body : Nat → σ → Except Err σ) (P : Nat → σ → Prop) :
    ∀ (n lo : Nat) (s : σ), P lo s →
      (∀ i t, lo ≤ i → i < lo + n → P i t → ∃ t', body i t = .ok t' ∧ P (i + 1) t') →
      ∃ s', forRange body lo n s = .ok s' ∧ P (lo + n) s' := by
  intro n
  induction n with
  | zero =>
    intro lo s h0 _
    exact ⟨s, rfl, by simpa using h0⟩
  | succ n ih =>
    intro lo s h0 hstep
    obtain ⟨t, hb, h1⟩ := hstep lo s (le_refl _) (by omega) h0
    obtain ⟨s', hs', hP⟩ := ih (lo + 1) t h1 (fun i u hi hi' => hstep i u (by omega) (by omega))
    refine ⟨s', ?_, ?_⟩
    · simp only [forRange, hb]; exact hs'
    · have e : lo + 1 + n = lo + (n + 1) := by omega
      rw [e] at hP
      exact hP

theorem sum_take_succ_of_get (l : List Nat) (j n : Nat) (h : l[j]? = some n) :
    (l.take (j + 1)).sum = (l.take j).sum + n := by
  rw [List.take_succ, h]; simp

section Mesh

variable {R : Type} [Ring R]

/-! ## The loops of `addMesh` -/

theorem vertexBody_spec (inp : MeshInput R) (i : Nat) (d d' : FMeshDescription R)
    (h : addMesh.vertexBody inp i d = .ok d') :
    ∃ x y z, inp.vtx[3 * i]? = some x ∧ inp.vtx[3 * i + 2]? = some y ∧
      inp.vtx[3 * i + 1]? = some z ∧
      d' = { d with VertexPositions := d.VertexPositions ++ [(FVector.mk x y z).scale 100] } := by
  unfold addMesh.vertexBody at h
  simp only [bind_ok, readAt_ok, FMeshDescription.CreateVertex,
    FMeshDescription.SetVertexPosition] at h
  obtain ⟨x, hx, y, hy, z, hz, h⟩ := h
  refine ⟨x, y, z, hx, hy, hz, ?_⟩
  simp at h
  rw [← h]

theorem uvBody_step (inp : MeshInput R) (o UVSet : Nat) (d0 : FMeshDescription R)
    (pre : List (FVertexInstance R)) (v : Nat) (nm : FVector R) (len : Nat)
    (d d' : FMeshDescription R) (hd : UVStep d0 pre v nm len d)
    (h : addMesh.uvBody inp o pre.length UVSet d = .ok d') : UVStep d0 pre v nm len d' := by
  obtain ⟨vi, rfl, hv, hn, hl⟩ := hd
  unfold addMesh.uvBody at h
  simp only [bind_ok, readAt_ok] at h
  obtain ⟨Indices, _, h⟩ := h
  split at h
  · simp only [bind_ok, readAt_ok] at h
    obtain ⟨Index, _, Coordinates, _, u, _, w, _, h⟩ := h
    unfold FMeshDescription.SetUV at h
    simp only [List.getElem?_concat_length] at h
    split at h
    · simp only [Except.ok.injEq] at h
      subst h
      refine ⟨{ vi with UVs := vi.UVs.set 0 ⟨u, -w⟩ }, ?_, hv, hn, by simpa using hl⟩
      simp
    · cases h
  · simp only [pure, Except.pure, Except.ok.injEq] at h
    subst h
    exact ⟨vi, rfl, hv, hn, hl⟩

theorem cornerBody_spec (inp : MeshInput R) (B i : Nat) (d d' : FMeshDescription R)
    (pvi pvi' : List Nat) (h : addMesh.cornerBody inp B i (d, pvi) = .ok (d', pvi')) :
    ∃ vi : FVertexInstance R,
      d' = { d with VertexInstances := d.VertexInstances ++ [vi] } ∧
      pvi' = pvi ++ [d.VertexInstances.length] ∧
      GoodCorner inp d.VertexPositions.length d.NumUVIndices (B + i) vi := by
  unfold addMesh.cornerBody at h
  simp only [bind_ok, readAt_ok] at h
  obtain ⟨v, hv, n, hn, ⟨d1, id⟩, hc, x, hx, y, hy, z, hz, d2, hs, d3, hu, h⟩ := h
  unfold FMeshDescription.CreateVertexInstance at hc
  split at hc
  · rename_i hlt
    simp only [Except.ok.injEq, Prod.mk.injEq] at hc
    obtain ⟨rfl, rfl⟩ := hc
    unfold FMeshDescription.SetNormal at hs
    simp only [List.getElem?_concat_length, Except.ok.injEq] at hs
    have h2 : UVStep d d.VertexInstances v ⟨x, y, z⟩ d.NumUVIndices d2 := by
      refine ⟨⟨v, ⟨x, y, z⟩, List.replicate d.NumUVIndices ⟨0, 0⟩⟩, ?_, rfl, rfl, by simp⟩
      rw [← hs]; simp
    have h3 := forRange_inv (addMesh.uvBody inp (B + i) d.VertexInstances.length)
      (fun _ t => UVStep d d.VertexInstances v ⟨x, y, z⟩ d.NumUVIndices t) inp.uvSets 0 d2 d3 h2
      (fun k t t' _ _ ht hb =>
        uvBody_step inp (B + i) k d d.VertexInstances v ⟨x, y, z⟩ _ t t' ht hb)
      hu
    obtain ⟨vi, h3, hv', hn', hl'⟩ := h3
    simp only [pure, Except.pure, Except.ok.injEq, Prod.mk.injEq] at h
    obtain ⟨rfl, rfl⟩ := h
    refine ⟨vi, h3, rfl, ⟨by rw [hv']; exact hv, n, hn, ?_, ?_, ?_⟩, hl',
      by rw [hv']; exact hlt⟩
    · rw [hn']; exact hx
    · rw [hn']; exact hy
    · rw [hn']; exact hz
  · cases hc

theorem cornerLoop_spec (inp : MeshInput R) (B n : Nat) (d d' : FMeshDescription R)
    (pvi' : List Nat)
    (h : forRange (addMesh.cornerBody inp B) 0 n (d, []) = .ok (d', pvi')) :
    ∃ vis : List (FVertexInstance R), vis.length = n ∧
      d' = { d with VertexInstances := d.VertexInstances ++ vis } ∧
      pvi' = List.range' d.VertexInstances.length n ∧
      ∀ k, k < n → ∃ vi, vis[k]? = some vi ∧
        GoodCorner inp d.VertexPositions.length d.NumUVIndices (B + k) vi := by
  have key := forRange_inv (addMesh.cornerBody inp B)
    (fun i (t : FMeshDescription R × List Nat) =>
      ∃ vis : List (FVertexInstance R), vis.length = i ∧
        t.1 = { d with VertexInstances := d.VertexInstances ++ vis } ∧
        t.2 = List.range' d.VertexInstances.length i ∧
        ∀ k, k < i → ∃ vi, vis[k]? = some vi ∧
          GoodCorner inp d.VertexPositions.length d.NumUVIndices (B + k) vi)
    n 0 (d, []) (d', pvi') ⟨[], rfl, by simp, by simp, by intro k hk; omega⟩ ?_ h
  · simpa using key
  · rintro i ⟨d1, p1⟩ ⟨d2, p2⟩ _ _ ⟨vis, hl, h1, h2, h3⟩ hb
    simp only at h1 h2
    obtain ⟨vi, e1, e2, c1⟩ := cornerBody_spec inp B i d1 d2 p1 p2 hb
    subst h1 h2
    refine ⟨vis ++ [vi], by simp [hl], ?_, ?_, ?_⟩
    · simp [e1]
    · simp only [e2, List.length_append, hl, List.range'_concat, Nat.one_mul]
    · intro k hk
      by_cases hki : k < i
      · obtain ⟨w, hw, hg⟩ := h3 k hki
        exact ⟨w, by rw [List.getElem?_append_left (by omega)]; exact hw, hg⟩
      · have : k = i := by omega
        subst this
        refine ⟨vi, ?_, c1⟩
        rw [← hl]; simp

theorem faceBody_step (inp : MeshInput R) (V : List (FVector R)) (g k j : Nat)
    (s s' : Assembly R) (hinv : FaceInv inp V j s) (hj : s.PolygonGroupStartIndex + k = j)
    (h : addMesh.faceBody inp g k s = .ok s') :
    FaceInv inp V (j + 1) s' ∧ s'.PolygonGroupStartIndex = s.PolygonGroupStartIndex ∧
      s'.Mesh = s.Mesh ∧
      s'.Description.PolygonGroupMaterialSlotNames = s.Description.PolygonGroupMaterialSlotNames ∧
      ∃ p, s'.Description.Polygons = s.Description.Polygons ++ [p] ∧ p.PolygonGroupID = g := by
  unfold addMesh.faceBody at h
  simp only [bind_ok, readAt_ok, hj] at h
  obtain ⟨n, hn, ⟨d1, pvi⟩, hl, h⟩ := h
  obtain ⟨vis, hvl, rfl, rfl, hc⟩ := cornerLoop_spec inp _ n _ _ _ hl
  simp only [pure, Except.pure, Except.ok.injEq] at h
  subst h
  have hoff : cornerOffset inp (j + 1) = cornerOffset inp j + n :=
    sum_take_succ_of_get _ _ _ hn
  refine ⟨⟨?_, ?_, ?_, ?_, ?_, ?_, ?_⟩, rfl, rfl, rfl, ⟨_, rfl, rfl⟩⟩
  · simp [hoff, hinv.base]
  · simp [FMeshDescription.CreatePolygon, hoff, hinv.nvi, hvl]
  · simp [FMeshDescription.CreatePolygon, hinv.npoly]
  · simpa [FMeshDescription.CreatePolygon] using hinv.pos
  · simpa [FMeshDescription.CreatePolygon] using hinv.nuv
  · intro o ho
    simp only [FMeshDescription.CreatePolygon]
    by_cases hlt : o < cornerOffset inp j
    · obtain ⟨vi, hvi, hg⟩ := hinv.corners o hlt
      refine ⟨vi, ?_, hg⟩
      rw [List.getElem?_append_left (by rw [hinv.nvi]; exact hlt)]
      exact hvi
    · obtain ⟨vi, hvi, hg⟩ := hc (o - cornerOffset inp j) (by omega)
      refine ⟨vi, ?_, ?_⟩
      · rw [List.getElem?_append_right (by rw [hinv.nvi]; omega), hinv.nvi]
        exact hvi
      · rw [hinv.pos, hinv.nuv, hinv.base] at hg
        have e : cornerOffset inp j + (o - cornerOffset inp j) = o := by omega
        rw [e] at hg
        exact hg
  · intro j' hj'
    simp only [FMeshDescription.CreatePolygon]
    by_cases hlt : j' < j
    · obtain ⟨m, p, h1, h2, h3⟩ := hinv.polys j' hlt
      refine ⟨m, p, h1, ?_, h3⟩
      rw [List.getElem?_append_left (by rw [hinv.npoly]; exact hlt)]
      exact h2
    · have e : j' = j := by omega
      subst e
      refine ⟨n, ⟨g, List.range' s.Description.VertexInstances.length n⟩, hn, ?_, ?_⟩
      · rw [← hinv.npoly]; simp
      · simp [hinv.nvi]

theorem faceLoop_spec (inp : MeshInput R) (V : List (FVector R)) (g n : Nat)
    (s s' : Assembly R) (hinv : FaceInv inp V s.PolygonGroupStartIndex s)
    (h : forRange (addMesh.faceBody inp g) 0 n s = .ok s') :
    FaceInv inp V (s.PolygonGroupStartIndex + n) s' ∧
      s'.PolygonGroupStartIndex = s.PolygonGroupStartIndex ∧ s'.Mesh = s.Mesh ∧
      s'.Description.PolygonGroupMaterialSlotNames =
        s.Description.PolygonGroupMaterialSlotNames ∧
      ∃ ps : List FPolygon, s'.Description.Polygons = s.Description.Polygons ++ ps ∧
        ps.length = n ∧ ∀ p ∈ ps, p.PolygonGroupID = g := by
  have key := forRange_inv (addMesh.faceBody inp g)
    (fun k t => FaceInv inp V (s.PolygonGroupStartIndex + k) t ∧
      t.PolygonGroupStartIndex = s.PolygonGroupStartIndex ∧ t.Mesh = s.Mesh ∧
      t.Description.PolygonGroupMaterialSlotNames =
        s.Description.PolygonGroupMaterialSlotNames ∧
      ∃ ps : List FPolygon, t.Description.Polygons = s.Description.Polygons ++ ps ∧
        ps.length = k ∧ ∀ p ∈ ps, p.PolygonGroupID = g)
    n 0 s s' ⟨by simpa using hinv, rfl, rfl, rfl, [], by simp, rfl, by simp⟩ ?_ h
  · simpa using key
  · rintro k t t' _ _ ⟨h1, h2, h3, h4, ps, h5, h6, h7⟩ hb
    obtain ⟨f1, f2, f3, f4, p, f5, f6⟩ :=
      faceBody_step inp V g k (s.PolygonGroupStartIndex + k) t t' h1 (by rw [h2]) hb
    refine ⟨f1, by rw [f2, h2], by rw [f3, h3], by rw [f4, h4], ps ++ [p], ?_, by simp [h6], ?_⟩
    · rw [f5, h5, List.append_assoc]
    · intro q hq
      rcases List.mem_append.1 hq with hq | hq
      · exact h7 q hq
      · simp only [List.mem_singleton] at hq
        rw [hq]; exact f6

theorem groupBody_step (H : Host) (OpaqueParent : Nat) (inp : MeshInput R)
    (V : List (FVector R)) (g : Nat) (s s' : Assembly R)
    (hinv : GroupInv H OpaqueParent inp V g s)
    (h : addMesh.groupBody H OpaqueParent inp g s = .ok s') :
    GroupInv H OpaqueParent inp V (g + 1) s' := by
  unfold addMesh.groupBody at h
  simp only [bind_ok, readAt_ok, FMeshDescription.CreatePolygonGroup,
    UStaticMesh.AddMaterial, FMeshDescription.SetMaterialSlotName] at h
  obtain ⟨n, hn, m0, hm0, d1, hd1, s1, hloop, h⟩ := h
  simp only [List.length_append, List.length_singleton, lt_add_iff_pos_right, zero_lt_one,
    ↓reduceIte, Except.ok.injEq] at hd1
  subst hd1
  simp only [pure, Except.pure, Except.ok.injEq] at h
  subst h
  have hst : faceStart inp (g + 1) = faceStart inp g + n := sum_take_succ_of_get _ _ _ hn
  have hf0 : FaceInv inp V (faceStart inp g)
      { s with
        Mesh := { s.Mesh with StaticMaterials := s.Mesh.StaticMaterials ++
          [CreateMaterial H OpaqueParent m0] }
        Description := { s.Description with
          PolygonGroupMaterialSlotNames :=
            (s.Description.PolygonGroupMaterialSlotNames ++ [none]).set
              s.Description.PolygonGroupMaterialSlotNames.length
              (some s.Mesh.StaticMaterials.length) } } :=
    ⟨hinv.face.base, hinv.face.nvi, hinv.face.npoly, hinv.face.pos, hinv.face.nuv,
      hinv.face.corners, hinv.face.polys⟩
  obtain ⟨f1, f2, f3, f4, ps, f5, f6, f7⟩ :=
    faceLoop_spec inp V _ n _ s1 (by simpa [hinv.pgsi] using hf0) hloop
  simp only at f1 f2 f3 f4 f5
  refine ⟨?_, ?_, ?_, ?_, ?_, ?_, ?_⟩
  · simp [f2, hinv.pgsi, hst]
  · rw [hst, ← hinv.pgsi]
    exact ⟨f1.base, f1.nvi, f1.npoly, f1.pos, f1.nuv, f1.corners, f1.polys⟩
  · simp [f3, hinv.nmat]
  · simp [f4, hinv.nslot]
  · simp [f3, hinv.undesc]
  · intro g' hg'
    simp only [f3, f4]
    by_cases hlt : g' < g
    · obtain ⟨m, e1, e2, e3⟩ := hinv.mats g' hlt
      refine ⟨m, e1, ?_, ?_⟩
      · rw [List.getElem?_append_left (by rw [hinv.nmat]; exact hlt)]; exact e2
      · rw [List.getElem?_set_ne (by rw [hinv.nslot]; omega),
          List.getElem?_append_left (by rw [hinv.nslot]; exact hlt)]
        exact e3
    · have e : g' = g := by omega
      subst e
      refine ⟨m0, hm0, ?_, ?_⟩
      · rw [← hinv.nmat]; simp
      · rw [hinv.nslot, hinv.nmat]; simp [hinv.nslot]
  · intro g' hg'
    simp only [f5]
    by_cases hlt : g' < g
    · obtain ⟨m, e1, e2⟩ := hinv.groups g' hlt
      refine ⟨m, e1, fun k hk => ?_⟩
      obtain ⟨p, hp, hp'⟩ := e2 k hk
      refine ⟨p, ?_, hp'⟩
      have hlen := (List.getElem?_eq_some_iff.1 hp).1
      rw [List.getElem?_append_left hlen]; exact hp
    · have e : g' = g := by omega
      subst e
      refine ⟨n, hn, fun k hk => ?_⟩
      have hk' : k < ps.length := by omega
      refine ⟨ps[k], ?_, by rw [f7 _ (List.getElem_mem _), hinv.nslot]⟩
      rw [List.getElem?_append_right (by rw [hinv.face.npoly]; omega), hinv.face.npoly]
      simp [hk']

theorem vertexLoop_spec (inp : MeshInput R) (m : Nat) (d0 d : FMeshDescription R)
    (h0 : d0.VertexPositions = [])
    (h : forRange (addMesh.vertexBody inp) 0 m d0 = .ok d) :
    d = { d0 with VertexPositions := d.VertexPositions } ∧ d.VertexPositions.length = m ∧
      ∀ i, i < m → ∃ x y z, inp.vtx[3 * i]? = some x ∧ inp.vtx[3 * i + 2]? = some y ∧
        inp.vtx[3 * i + 1]? = some z ∧
        d.VertexPositions[i]? = some ((FVector.mk x y z).scale 100) := by
  have key := forRange_inv (addMesh.vertexBody inp)
    (fun k (t : FMeshDescription R) =>
      t = { d0 with VertexPositions := t.VertexPositions } ∧ t.VertexPositions.length = k ∧
      ∀ i, i < k → ∃ x y z, inp.vtx[3 * i]? = some x ∧ inp.vtx[3 * i + 2]? = some y ∧
        inp.vtx[3 * i + 1]? = some z ∧
        t.VertexPositions[i]? = some ((FVector.mk x y z).scale 100))
    m 0 d0 d ⟨by cases d0; simp only at h0; subst h0; rfl, by simp [h0],
      by intro i hi; omega⟩ ?_ h
  · simpa using key
  · rintro k t t' _ _ ⟨h1, h2, h3⟩ hb
    obtain ⟨x, y, z, hx, hy, hz, e⟩ := vertexBody_spec inp k t t' hb
    subst e
    refine ⟨?_, by simp [h2], ?_⟩
    · simp only
      rw [h1]
    · intro i hi
      by_cases hlt : i < k
      · obtain ⟨a, b, c, ha, hb', hc, hv⟩ := h3 i hlt
        refine ⟨a, b, c, ha, hb', hc, ?_⟩
        simp only
        rw [List.getElem?_append_left (by omega)]
        exact hv
      · have e : i = k := by omega
        subst e
        refine ⟨x, y, z, hx, hy, hz, ?_⟩
        simp only
        rw [← h2]
        simp

theorem assemble_spec (H : Host) (OpaqueParent : Nat) (inp : MeshInput R) (mesh : UStaticMesh R)
    (h : addMesh.assemble H OpaqueParent inp = .ok mesh) :
    ∃ (V : List (FVector R)) (s : Assembly R), VertexPool inp V ∧
      GroupInv H OpaqueParent inp V inp.faceRanges.length s ∧
      mesh = ⟨s.Mesh.StaticMaterials, some s.Description⟩ := by
  unfold addMesh.assemble at h
  simp only [bind_ok] at h
  obtain ⟨d, hv, s, hg, h⟩ := h
  obtain ⟨e1, e2, e3⟩ := vertexLoop_spec inp _ _ d (by simp [FMeshDescription.Register,
    FMeshDescription.SetNumUVIndices]) hv
  have hinit : GroupInv H OpaqueParent inp d.VertexPositions 0 ⟨⟨[], none⟩, d, 0, 0⟩ := by
    refine ⟨by simp [faceStart], ⟨?_, ?_, ?_, rfl, ?_, ?_, ?_⟩, rfl, ?_, rfl, ?_, ?_⟩
    · simp [cornerOffset, faceStart]
    · rw [e1]; simp [cornerOffset, faceStart, FMeshDescription.Register,
        FMeshDescription.SetNumUVIndices]
    · rw [e1]; simp [faceStart, FMeshDescription.Register, FMeshDescription.SetNumUVIndices]
    · rw [e1]; simp [FMeshDescription.Register, FMeshDescription.SetNumUVIndices]
    · intro o ho; simp [cornerOffset, faceStart] at ho
    · intro j hj; simp [faceStart] at hj
    · rw [e1]; simp [FMeshDescription.Register, FMeshDescription.SetNumUVIndices]
    · intro g hg; omega
    · intro g hg; omega
  have key := forRange_inv (addMesh.groupBody H OpaqueParent inp)
    (fun g t => GroupInv H OpaqueParent inp d.VertexPositions g t)
    inp.faceRanges.length 0 _ s hinit
    (fun g t t' _ _ ht hb => groupBody_step H OpaqueParent inp _ g t t' ht hb) hg
  simp only [Nat.zero_add] at key
  simp only [pure, Except.pure, Except.ok.injEq, UStaticMesh.BuildFromMeshDescriptions] at h
  refine ⟨d.VertexPositions, s, ⟨e2, fun i hi => e3 i (by omega)⟩, key, ?_⟩
  rw [← h]

end Mesh

/-! ## The registry after `addMesh` -/

section Map

variable {K V : Type} [DecidableEq K]

theorem TMap.Find_Add_self (m : TMap K V) (k : K) (v : V) :
    TMap.Find (TMap.Add m k v) k = some v := by
  induction m with
  | nil => simp [TMap.Add, TMap.Find]
  | cons e rest ih =>
    obtain ⟨k', v'⟩ := e
    by_cases h : k' = k
    · simp [TMap.Add, TMap.Find, h]
    · simp [TMap.Add, TMap.Find, h, ih]

theorem TMap.Find_Add_of_ne (m : TMap K V) (k k' : K) (v : V) (h : k' ≠ k) :
    TMap.Find (TMap.Add m k v) k' = TMap.Find m k' := by
  induction m with
  | nil => simp [TMap.Add, TMap.Find, Ne.symm h]
  | cons e rest ih =>
    obtain ⟨k0, v0⟩ := e
    by_cases h0 : k0 = k
    · subst h0
      simp [TMap.Add, TMap.Find, Ne.symm h]
    · by_cases h1 : k0 = k'
      · subst h1
        simp [TMap.Add, TMap.Find, h0]
      · simp [TMap.Add, TMap.Find, h0, h1, ih]

end Map

theorem faceStart_length {R : Type} (inp : MeshInput R) :
    faceStart inp inp.faceRanges.length = inp.faceRanges.sum := by
  simp [faceStart]

theorem cornerOffset_length {R : Type} (inp : MeshInput R) :
    cornerOffset inp inp.faceVertexCounts.length = inp.faceVertexCounts.sum := by
  simp [cornerOffset]

section Mesh

variable {R : Type} [Ring R]

theorem addMesh_ok (H : Host) (self : UnrealCallbacks R) (inp : MeshInput R)
    (hok : (self.addMesh H inp).1 = .ok ()) :
    ∃ mesh, addMesh.assemble H self.OpaqueParent inp = .ok mesh ∧
      (self.addMesh H inp).2 =
        { self with
          Meshes := self.Meshes ++ [mesh]
          PrototypeMap := TMap.Add self.PrototypeMap inp.prototypeId self.Meshes.length } := by
  unfold UnrealCallbacks.addMesh at hok ⊢
  cases h : addMesh.assemble H self.OpaqueParent inp with
  | error e => rw [h] at hok; cases hok
  | ok mesh => exact ⟨mesh, rfl, rfl⟩

theorem addMesh_registers (H : Host) (self : UnrealCallbacks R) (inp : MeshInput R)
    (hok : (self.addMesh H inp).1 = .ok ()) :
    ∃ mesh, addMesh.assemble H self.OpaqueParent inp = .ok mesh ∧
      (self.addMesh H inp).2.PrototypeMesh inp.prototypeId = some mesh := by
  obtain ⟨mesh, h1, h2⟩ := addMesh_ok H self inp hok
  refine ⟨mesh, h1, ?_⟩
  rw [h2]
  simp [UnrealCallbacks.PrototypeMesh, TMap.Find_Add_self]

end Mesh

theorem sum_take_mono (l : List Nat) : ∀ (a b : Nat), a ≤ b → (l.take a).sum ≤ (l.take b).sum := by
  induction l with
  | nil => intro a b _; simp
  | cons x xs ih =>
    intro a b hab
    cases a with
    | zero => simp
    | succ a =>
      cases b with
      | zero => omega
      | succ b =>
        simp only [List.take_succ_cons, List.sum_cons]
        have := ih a b (by omega)
        omega

theorem wrap32_le (n : Nat) : wrap32 n ≤ n := Nat.mod_le _ _

section Mesh

variable {R : Type} [Ring R]

/-! ## Completion of `addMesh` on well-formed input -/

theorem vertexBody_ok (inp : MeshInput R) (i : Nat) (d : FMeshDescription R)
    (h : 3 * i + 2 < inp.vtx.length) : ∃ d', addMesh.vertexBody inp i d = .ok d' := by
  unfold addMesh.vertexBody
  simp only [FMeshDescription.CreateVertex, FMeshDescription.SetVertexPosition]
  rw [readAt_of_lt _ _ (by omega), readAt_of_lt _ _ h, readAt_of_lt _ _ (by omega)]
  simp [bind, Except.bind]

theorem uvBody_ok (inp : MeshInput R) (hwf : inp.WellFormed) (o UVSet : Nat)
    (ho : o < inp.faceVertexCounts.sum) (hs : UVSet < inp.uvSets)
    (d0 : FMeshDescription R) (pre : List (FVertexInstance R)) (v : Nat) (nm : FVector R)
    (d : FMeshDescription R) (hd : UVStep d0 pre v nm inp.uvSets d) :
    ∃ d', addMesh.uvBody inp o pre.length UVSet d = .ok d' := by
  obtain ⟨vi, rfl, _, _, hl⟩ := hd
  have h1 : UVSet < inp.uvIndices.length := by rw [hwf.nuvIndexSets]; exact hs
  have h2 : UVSet < inp.uvs.length := by rw [hwf.nuvSets]; exact hs
  unfold addMesh.uvBody
  rw [readAt_of_lt _ _ h1]
  simp only [bind, Except.bind]
  split
  · rename_i hne
    have hlen := hwf.nuvIndices UVSet _ (List.getElem?_eq_getElem h1)
      (by intro h; rw [h] at hne; simp at hne)
    have h3 : o < inp.uvIndices[UVSet].length := by rw [hlen]; exact ho
    have hr := hwf.uvRange UVSet _ _ (List.getElem?_eq_getElem h1) (List.getElem?_eq_getElem h2)
      _ (List.getElem_mem h3)
    have w1 := wrap32_le (inp.uvIndices[UVSet][o] * 2)
    have w2 := wrap32_le (wrap32 (inp.uvIndices[UVSet][o] * 2) + 1)
    have r1 := readAt_of_lt inp.uvIndices[UVSet] o h3
    have r2 := readAt_of_lt inp.uvs UVSet h2
    have r3 := readAt_of_lt inp.uvs[UVSet] (wrap32 (inp.uvIndices[UVSet][o] * 2)) (by omega)
    have r4 := readAt_of_lt inp.uvs[UVSet]
      (wrap32 (wrap32 (inp.uvIndices[UVSet][o] * 2) + 1)) (by omega)
    simp only [r1, r2, r3, r4, FMeshDescription.SetUV, List.getElem?_concat_length]
    rw [if_pos (by omega)]
    exact ⟨_, rfl⟩
  · exact ⟨_, rfl⟩

theorem cornerBody_ok (inp : MeshInput R) (hwf : inp.WellFormed) (B i : Nat)
    (ho : B + i < inp.faceVertexCounts.sum) (d : FMeshDescription R) (pvi : List Nat)
    (hpos : d.VertexPositions.length = inp.vtx.length / 3) (hnuv : d.NumUVIndices = inp.uvSets) :
    ∃ t, addMesh.cornerBody inp B i (d, pvi) = .ok t := by
  have h1 : B + i < inp.vertexIndices.length := by rw [hwf.nvertexIndices]; exact ho
  have h2 : B + i < inp.normalIndices.length := by rw [hwf.nnormalIndices]; exact ho
  have hv := hwf.vertexRange _ (List.getElem_mem h1)
  have hn := hwf.normalRange _ (List.getElem_mem h2)
  have w1 := wrap32_le (inp.normalIndices[B + i] * 3)
  have w2 := wrap32_le (wrap32 (inp.normalIndices[B + i] * 3) + 2)
  have w3 := wrap32_le (wrap32 (inp.normalIndices[B + i] * 3) + 1)
  have r1 := readAt_of_lt inp.vertexIndices (B + i) h1
  have r2 := readAt_of_lt inp.normalIndices (B + i) h2
  have b3 : wrap32 (inp.normalIndices[B + i] * 3) < inp.nrm.length := by omega
  have b4 : wrap32 (wrap32 (inp.normalIndices[B + i] * 3) + 2) < inp.nrm.length := by omega
  have b5 : wrap32 (wrap32 (inp.normalIndices[B + i] * 3) + 1) < inp.nrm.length := by omega
  have r3 := readAt_of_lt inp.nrm (wrap32 (inp.normalIndices[B + i] * 3)) b3
  have r4 := readAt_of_lt inp.nrm (wrap32 (wrap32 (inp.normalIndices[B + i] * 3) + 2)) b4
  have r5 := readAt_of_lt inp.nrm (wrap32 (wrap32 (inp.normalIndices[B + i] * 3) + 1)) b5
  obtain ⟨d3, h3, _⟩ := forRange_ok
    (addMesh.uvBody inp (B + i) d.VertexInstances.length)
    (fun _ t => UVStep d d.VertexInstances inp.vertexIndices[B + i]
      ⟨inp.nrm[wrap32 (inp.normalIndices[B + i] * 3)],
       inp.nrm[wrap32 (wrap32 (inp.normalIndices[B + i] * 3) + 2)],
       inp.nrm[wrap32 (wrap32 (inp.normalIndices[B + i] * 3) + 1)]⟩ inp.uvSets t)
    inp.uvSets 0
    { d with VertexInstances := d.VertexInstances ++
        [⟨inp.vertexIndices[B + i],
          ⟨inp.nrm[wrap32 (inp.normalIndices[B + i] * 3)],
           inp.nrm[wrap32 (wrap32 (inp.normalIndices[B + i] * 3) + 2)],
           inp.nrm[wrap32 (wrap32 (inp.normalIndices[B + i] * 3) + 1)]⟩,
          List.replicate d.NumUVIndices ⟨0, 0⟩⟩] }
    ⟨_, rfl, rfl, rfl, by simp [hnuv]⟩
    (fun k t _ hk ht => by
      obtain ⟨t', ht'⟩ := uvBody_ok inp hwf (B + i) k ho (by omega) d d.VertexInstances _ _ t ht
      exact ⟨t', ht', uvBody_step inp (B + i) k d d.VertexInstances _ _ _ t t' ht ht'⟩)
  unfold addMesh.cornerBody
  simp only [bind, Except.bind, r1, r2, r3, r4, r5, FMeshDescription.CreateVertexInstance,
    FMeshDescription.SetNormal]
  rw [if_pos (by rw [hpos]; exact hv)]
  simp only [List.getElem?_concat_length, List.set_append_right, List.length_append]
  simp only [le_refl, List.set_append_right, Nat.sub_self, List.set_cons_zero]
  rw [h3]
  exact ⟨_, rfl⟩

theorem faceBody_ok (inp : MeshInput R) (hwf : inp.WellFormed) (V : List (FVector R))
    (hV : V.length = inp.vtx.length / 3) (g k j : Nat) (s : Assembly R)
    (hinv : FaceInv inp V j s) (hj : s.PolygonGroupStartIndex + k = j)
    (hlt : j < inp.faceVertexCounts.length) :
    ∃ s', addMesh.faceBody inp g k s = .ok s' := by
  have hoff : cornerOffset inp (j + 1) = cornerOffset inp j + inp.faceVertexCounts[j] :=
    sum_take_succ_of_get _ _ _ (List.getElem?_eq_getElem hlt)
  have hle : cornerOffset inp (j + 1) ≤ inp.faceVertexCounts.sum := by
    rw [← cornerOffset_length]
    exact sum_take_mono _ _ _ (by omega)
  obtain ⟨t, ht, _⟩ := forRange_ok (addMesh.cornerBody inp s.BaseVertexIndex)
    (fun _ (t : FMeshDescription R × List Nat) =>
      t.1.VertexPositions.length = inp.vtx.length / 3 ∧ t.1.NumUVIndices = inp.uvSets)
    inp.faceVertexCounts[j] 0 (s.Description, [])
    ⟨by rw [hinv.pos]; exact hV, hinv.nuv⟩
    (fun i t _ hi ht => by
      obtain ⟨d, pvi⟩ := t
      obtain ⟨t', ht'⟩ := cornerBody_ok inp hwf s.BaseVertexIndex i
        (by rw [hinv.base]; omega) d pvi ht.1 ht.2
      obtain ⟨d', pvi'⟩ := t'
      obtain ⟨vi, e, _, _⟩ := cornerBody_spec inp _ i d d' pvi pvi' ht'
      refine ⟨_, ht', ?_, ?_⟩
      · rw [e]; exact ht.1
      · rw [e]; exact ht.2)
  unfold addMesh.faceBody
  rw [hj, readAt_of_lt _ _ hlt]
  simp only [bind, Except.bind, ht]
  exact ⟨_, rfl⟩

theorem groupBody_ok (H : Host) (OpaqueParent : Nat) (inp : MeshInput R) (hwf : inp.WellFormed)
    (V : List (FVector R)) (hV : V.length = inp.vtx.length / 3) (g : Nat) (s : Assembly R)
    (hinv : GroupInv H OpaqueParent inp V g s) (hg : g < inp.faceRanges.length) :
    ∃ s', addMesh.groupBody H OpaqueParent inp g s = .ok s' := by
  have hm : 0 < inp.materials.length := by
    have := hwf.material (by intro h; rw [h] at hg; simp at hg)
    exact List.length_pos.2 this
  have hst : faceStart inp (g + 1) = faceStart inp g + inp.faceRanges[g] :=
    sum_take_succ_of_get _ _ _ (List.getElem?_eq_getElem hg)
  have hle : faceStart inp (g + 1) ≤ inp.faceVertexCounts.length := by
    rw [← hwf.faces, ← faceStart_length]
    exact sum_take_mono _ _ _ (by omega)
  obtain ⟨t, ht, _⟩ := forRange_ok (addMesh.faceBody inp s.Description.PolygonGroupMaterialSlotNames.length)
    (fun k t => t.PolygonGroupStartIndex = faceStart inp g ∧
      FaceInv inp V (faceStart inp g + k) t)
    inp.faceRanges[g] 0
    { s with
      Mesh := { s.Mesh with StaticMaterials := s.Mesh.StaticMaterials ++
        [CreateMaterial H OpaqueParent inp.materials[0]] }
      Description := { s.Description with
        PolygonGroupMaterialSlotNames :=
          (s.Description.PolygonGroupMaterialSlotNames ++ [none]).set
            s.Description.PolygonGroupMaterialSlotNames.length
            (some s.Mesh.StaticMaterials.length) } }
    ⟨hinv.pgsi, hinv.face.base, hinv.face.nvi, hinv.face.npoly, hinv.face.pos, hinv.face.nuv,
      hinv.face.corners, hinv.face.polys⟩
    (fun k t _ hk ht => by
      obtain ⟨t', ht'⟩ := faceBody_ok inp hwf V hV _ k (faceStart inp g + k) t ht.2
        (by rw [ht.1]) (by omega)
      obtain ⟨f1, f2, _⟩ := faceBody_step inp V _ k (faceStart inp g + k) t t' ht.2
        (by rw [ht.1]) ht'
      exact ⟨t', ht', by rw [f2, ht.1], f1⟩)
  unfold addMesh.groupBody
  rw [readAt_of_lt _ _ hg, readAt_of_lt _ _ hm]
  simp only [bind, Except.bind, FMeshDescription.CreatePolygonGroup, UStaticMesh.AddMaterial,
    FMeshDescription.SetMaterialSlotName, List.length_append, List.length_singleton,
    lt_add_iff_pos_right, zero_lt_one, ↓reduceIte, ht]
  exact ⟨_, rfl⟩

theorem groupInv_init (H : Host) (OpaqueParent : Nat) (inp : MeshInput R)
    (d : FMeshDescription R)
    (hd : d = { (FMeshDescription.Register : FMeshDescription R).SetNumUVIndices inp.uvSets with
      VertexPositions := d.VertexPositions }) :
    GroupInv H OpaqueParent inp d.VertexPositions 0 ⟨⟨[], none⟩, d, 0, 0⟩ := by
  refine ⟨by simp [faceStart], ⟨?_, ?_, ?_, rfl, ?_, ?_, ?_⟩, rfl, ?_, rfl, ?_, ?_⟩
  · simp [cornerOffset, faceStart]
  · rw [hd]; simp [cornerOffset, faceStart, FMeshDescription.Register,
      FMeshDescription.SetNumUVIndices]
  · rw [hd]; simp [faceStart, FMeshDescription.Register, FMeshDescription.SetNumUVIndices]
  · rw [hd]; simp [FMeshDescription.Register, FMeshDescription.SetNumUVIndices]
  · intro o ho; simp [cornerOffset, faceStart] at ho
  · intro j hj; simp [faceStart] at hj
  · rw [hd]; simp [FMeshDescription.Register, FMeshDescription.SetNumUVIndices]
  · intro g hg; omega
  · intro g hg; omega

/-- On well-formed input every read of `addMesh` is in bounds and every corner
refers to an existing vertex: the assembly completes. -/
theorem assemble_ok (H : Host) (OpaqueParent : Nat) (inp : MeshInput R) (hwf : inp.WellFormed) :
    ∃ mesh, addMesh.assemble H OpaqueParent inp = .ok mesh := by
  obtain ⟨k, hk⟩ := hwf.vtx3
  obtain ⟨d, hd, _⟩ := forRange_ok (addMesh.vertexBody inp) (fun _ _ => True)
    ((inp.vtx.length + 2) / 3) 0
    ((FMeshDescription.Register : FMeshDescription R).SetNumUVIndices inp.uvSets) trivial
    (fun i t _ hi _ => by
      obtain ⟨t', ht'⟩ := vertexBody_ok inp i t (by omega)
      exact ⟨t', ht', trivial⟩)
  obtain ⟨e1, e2, _⟩ := vertexLoop_spec inp _ _ d (by simp [FMeshDescription.Register,
    FMeshDescription.SetNumUVIndices]) hd
  obtain ⟨s, hs, _⟩ := forRange_ok (addMesh.groupBody H OpaqueParent inp)
    (fun g t => GroupInv H OpaqueParent inp d.VertexPositions g t)
    inp.faceRanges.length 0 ⟨⟨[], none⟩, d, 0, 0⟩ (groupInv_init H OpaqueParent inp d e1)
    (fun g t _ hg ht => by
      obtain ⟨t', ht'⟩ := groupBody_ok H OpaqueParent inp hwf d.VertexPositions
        (by omega) g t ht (by omega)
      exact ⟨t', ht', groupBody_step H OpaqueParent inp _ g t t' ht ht'⟩)
  unfold addMesh.assemble
  simp only [bind, Except.bind, hd, hs]
  exact ⟨_, rfl⟩

theorem addMesh_completes (H : Host) (self : UnrealCallbacks R) (inp : MeshInput R)
    (hwf : inp.WellFormed) : (self.addMesh H inp).1 = .ok () := by
  obtain ⟨mesh, h⟩ := assemble_ok H self.OpaqueParent inp hwf
  unfold UnrealCallbacks.addMesh
  rw [h]

end Mesh

theorem hugeNrm_length : hugeNrm.length = 4294967301 := by
  unfold hugeNrm
  rw [List.length_append, List.length_replicate]
  rfl

theorem hugeNrm_low (i : Nat) (h : i < 4294967298) : hugeNrm[i]? = some 0 := by
  unfold hugeNrm
  rw [List.getElem?_append_left (by rw [List.length_replicate]; exact h),
    List.getElem?_replicate, if_pos h]

theorem hugeNrm_high (i : Nat) : hugeNrm[4294967298 + i]? = ([1, 2, 3] : List Int)[i]? := by
  unfold hugeNrm
  rw [List.getElem?_append_right (by rw [List.length_replicate]; omega), List.length_replicate,
    Nat.add_sub_cancel_left]

theorem hugeNormals_wellFormed : hugeNormals.WellFormed := by
  refine ⟨?_, ?_, ?_, ?_, ?_, ?_, ?_, ?_, ?_, ?_, ?_, ?_⟩
  · exact ⟨3, rfl⟩
  · exact ⟨1431655767, hugeNrm_length⟩
  · rfl
  · rfl
  · rfl
  · rfl
  · rfl
  · intro s idx h; simp [hugeNormals] at h
  · intro v hv
    have : v = 0 ∨ v = 1 ∨ v = 2 := by simpa [hugeNormals] using hv
    have e : hugeNormals.vtx.length = 9 := rfl
    rw [e]; omega
  · intro n hn
    have : n = 1431655766 := by simpa [hugeNormals] using hn
    have e : hugeNormals.nrm.length = 4294967301 := hugeNrm_length
    rw [e]; omega
  · intro s idx co h; simp [hugeNormals] at h
  · intro _; simp [hugeNormals]

/-- C5, counterexample: corner 0 of `hugeNormals` has normal index
`n = 1431655766` and the array holds `nrm[3n] = 1`, `nrm[3n+1] = 2`,
`nrm[3n+2] = 3`, yet the completed `addMesh` records the normal `(0, 0, 0)`
read at `nrm[2], nrm[4], nrm[3]`, because `3n` wraps in 32-bit arithmetic. -/
theorem addMesh_normals_counterexample :
    ((emptyCallbacks Int).addMesh sampleHost hugeNormals).1 = .ok () ∧
    hugeNormals.normalIndices[0]? = some 1431655766 ∧
    hugeNormals.nrm[3 * 1431655766]? = some 1 ∧
    hugeNormals.nrm[3 * 1431655766 + 1]? = some 2 ∧
    hugeNormals.nrm[3 * 1431655766 + 2]? = some 3 ∧
    ∃ mesh d vi,
      ((emptyCallbacks Int).addMesh sampleHost hugeNormals).2.PrototypeMesh 7 = some mesh ∧
      mesh.Description = some d ∧ d.VertexInstances[0]? = some vi ∧
      vi.Normal = ⟨0, 0, 0⟩ ∧ vi.Normal ≠ ⟨1, 3, 2⟩ := by
  have hok := addMesh_completes sampleHost (emptyCallbacks Int) hugeNormals hugeNormals_wellFormed
  refine ⟨hok, rfl, hugeNrm_high 0, hugeNrm_high 1, hugeNrm_high 2, ?_⟩
  obtain ⟨mesh, hasm, hreg⟩ := addMesh_registers sampleHost (emptyCallbacks Int) hugeNormals hok
  obtain ⟨V, s, _, hg, rfl⟩ := assemble_spec sampleHost _ hugeNormals mesh hasm
  have hoff : 0 < cornerOffset hugeNormals (faceStart hugeNormals hugeNormals.faceRanges.length) := by
    decide
  obtain ⟨vi, hvi, ⟨_, n, hn, hx, hy, hz⟩, _⟩ := hg.face.corners 0 hoff
  have en : n = 1431655766 := by
    have : hugeNormals.normalIndices[0]? = some 1431655766 := rfl
    rw [this] at hn
    exact (Option.some.inj hn).symm
  subst en
  have e0 : wrap32 (1431655766 * 3) = 2 := by decide
  have e1 : wrap32 (2 + 2) = 4 := by decide
  have e2 : wrap32 (2 + 1) = 3 := by decide
  rw [e0] at hx hy hz
  rw [e1] at hy
  rw [e2] at hz
  have hx' : hugeNormals.nrm[2]? = some 0 := hugeNrm_low 2 (by omega)
  have hy' : hugeNormals.nrm[4]? = some 0 := hugeNrm_low 4 (by omega)
  have hz' : hugeNormals.nrm[3]? = some 0 := hugeNrm_low 3 (by omega)
  rw [hx'] at hx
  rw [hy'] at hy
  rw [hz'] at hz
  have hnormal : vi.Normal = ⟨0, 0, 0⟩ := by
    cases hN : vi.Normal with
    | mk a b c =>
      rw [hN] at hx hy hz
      simp only [Option.some.injEq] at hx hy hz
      rw [← hx, ← hy, ← hz]
  refine ⟨_, s.Description, vi, hreg, rfl, hvi, hnormal, ?_⟩
  rw [hnormal]
  decide

/-! ## Claims about `addMesh` -/

section Mesh

variable {R : Type} [Ring R]

/-- C1: `addMesh` completes on every well-formed input; and whenever it
completes on an input whose face-group sizes add up to the number of faces,
the registered mesh description has `sum(faceVertexCounts)` vertex instances,
`sum(faceRanges)` polygons and `faceRangesSize` polygon groups. -/
theorem addMesh_counts (H : Host) (self : UnrealCallbacks R) (inp : MeshInput R)
    (hsum : inp.faceRanges.sum = inp.faceVertexCounts.length) :
    (inp.WellFormed → (self.addMesh H inp).1 = .ok ()) ∧
    ((self.addMesh H inp).1 = .ok () →
      ∃ mesh d, (self.addMesh H inp).2.PrototypeMesh inp.prototypeId = some mesh ∧
        mesh.Description = some d ∧
        d.VertexInstances.length = inp.faceVertexCounts.sum ∧
        d.Polygons.length = inp.faceRanges.sum ∧
        d.PolygonGroupMaterialSlotNames.length = inp.faceRanges.length) := by
  refine ⟨addMesh_completes H self inp, fun hok => ?_⟩
  obtain ⟨mesh, hasm, hreg⟩ := addMesh_registers H self inp hok
  obtain ⟨V, s, _, hg, rfl⟩ := assemble_spec H self.OpaqueParent inp mesh hasm
  refine ⟨_, s.Description, hreg, rfl, ?_, ?_, hg.nslot⟩
  · rw [hg.face.nvi, faceStart_length, hsum, cornerOffset_length]
  · rw [hg.face.npoly, faceStart_length]

/-- Witness of C1: the triangle of the specification's example is assembled
into 3 corners, 1 face and 1 group. -/
theorem addMesh_counts_witness :
    (triangle Int).faceRanges.sum = (triangle Int).faceVertexCounts.length ∧
    ((emptyCallbacks Int).addMesh sampleHost (triangle Int)).1 = .ok () ∧
    ∃ mesh d,
      ((emptyCallbacks Int).addMesh sampleHost (triangle Int)).2.PrototypeMesh
        (triangle Int).prototypeId = some mesh ∧
      mesh.Description = some d ∧
      d.VertexInstances.length = (triangle Int).faceVertexCounts.sum ∧
      d.Polygons.length = (triangle Int).faceRanges.sum ∧
      d.PolygonGroupMaterialSlotNames.length = (triangle Int).faceRanges.length :=
  ⟨by decide, by rfl,
    (addMesh_counts sampleHost (emptyCallbacks Int) (triangle Int) (by decide)).2 (by rfl)⟩

/-- C2: `addMesh` completes on every well-formed input; and whenever it
completes, face `k` of group `g` is polygon number
`j = faceRanges[0] + ... + faceRanges[g-1] + k`, it lies in polygon group `g`,
it has `faceVertexCounts[j]` corners, and its `i`-th corner is the vertex
instance created at running offset `off_j + i`, bound to vertex
`vertexIndices[off_j + i]`, where `off_j` is the sum of the vertex counts of
the faces before `j`. -/
theorem addMesh_face_stream (H : Host) (self : UnrealCallbacks R) (inp : MeshInput R) :
    (inp.WellFormed → (self.addMesh H inp).1 = .ok ()) ∧
    ((self.addMesh H inp).1 = .ok () →
      ∃ mesh d, (self.addMesh H inp).2.PrototypeMesh inp.prototypeId = some mesh ∧
        mesh.Description = some d ∧
        ∀ g n, inp.faceRanges[g]? = some n → ∀ k, k < n →
          ∃ c p, inp.faceVertexCounts[faceStart inp g + k]? = some c ∧
            d.Polygons[faceStart inp g + k]? = some p ∧
            p.PolygonGroupID = g ∧ p.VertexInstanceIDs.length = c ∧
            ∀ i, i < c → ∃ vi,
              p.VertexInstanceIDs[i]? = some (cornerOffset inp (faceStart inp g + k) + i) ∧
              d.VertexInstances[cornerOffset inp (faceStart inp g + k) + i]? = some vi ∧
              inp.vertexIndices[cornerOffset inp (faceStart inp g + k) + i]? =
                some vi.VertexID) := by
  refine ⟨addMesh_completes H self inp, fun hok => ?_⟩
  obtain ⟨mesh, hasm, hreg⟩ := addMesh_registers H self inp hok
  obtain ⟨V, s, _, hg, rfl⟩ := assemble_spec H self.OpaqueParent inp mesh hasm
  refine ⟨_, s.Description, hreg, rfl, ?_⟩
  intro g n hn k hk
  have hgl : g < inp.faceRanges.length := (List.getElem?_eq_some_iff.1 hn).1
  obtain ⟨n', hn', hgrp⟩ := hg.groups g hgl
  rw [hn] at hn'
  cases hn'
  obtain ⟨p, hp, hpg⟩ := hgrp k hk
  have hj : faceStart inp g + k < faceStart inp inp.faceRanges.length := by
    have := (List.getElem?_eq_some_iff.1 hp).1
    rw [hg.face.npoly] at this
    exact this
  obtain ⟨c, p', hc, hp', hids⟩ := hg.face.polys _ hj
  rw [hp] at hp'
  cases hp'
  refine ⟨c, p, hc, hp, hpg, by simp [hids], ?_⟩
  intro i hi
  have hoff : cornerOffset inp (faceStart inp g + k) + i <
      cornerOffset inp (faceStart inp inp.faceRanges.length) := by
    have h1 : cornerOffset inp (faceStart inp g + k + 1) =
        cornerOffset inp (faceStart inp g + k) + c := sum_take_succ_of_get _ _ _ hc
    have h2 : cornerOffset inp (faceStart inp g + k + 1) ≤
        cornerOffset inp (faceStart inp inp.faceRanges.length) :=
      sum_take_mono _ _ _ (by omega)
    omega
  obtain ⟨vi, hvi, hcorner, _⟩ := hg.face.corners _ hoff
  refine ⟨vi, ?_, hvi, hcorner.1⟩
  rw [hids, List.getElem?_range' _ _ hi]
  simp

/-- Witness of C2: the quad and the triangle of `twoGroups` are assembled
into polygons 0 and 1 of groups 0 and 1. -/
theorem addMesh_face_stream_witness :
    ((emptyCallbacks Int).addMesh sampleHost twoGroups).1 = .ok () ∧
    ∃ mesh d,
      ((emptyCallbacks Int).addMesh sampleHost twoGroups).2.PrototypeMesh
        twoGroups.prototypeId = some mesh ∧
      mesh.Description = some d ∧
      ∀ g n, twoGroups.faceRanges[g]? = some n → ∀ k, k < n →
        ∃ c p, twoGroups.faceVertexCounts[faceStart twoGroups g + k]? = some c ∧
          d.Polygons[faceStart twoGroups g + k]? = some p ∧
          p.PolygonGroupID = g ∧ p.VertexInstanceIDs.length = c ∧
          ∀ i, i < c → ∃ vi,
            p.VertexInstanceIDs[i]? =
              some (cornerOffset twoGroups (faceStart twoGroups g + k) + i) ∧
            d.VertexInstances[cornerOffset twoGroups (faceStart twoGroups g + k) + i]? =
              some vi ∧
            twoGroups.vertexIndices[cornerOffset twoGroups (faceStart twoGroups g + k) + i]? =
              some vi.VertexID :=
  ⟨by rfl, (addMesh_face_stream sampleHost (emptyCallbacks Int) twoGroups).2 (by rfl)⟩

/-- C3: `addMesh` completes on every well-formed input; and whenever it
completes on an input whose `vtxSize` is a multiple of 3, it has created
`vtxSize / 3` vertices in input order, vertex `i` at
`(vtx[3i], vtx[3i+2], vtx[3i+1]) * 100`; for `vtx = [0,0,0, 1,0,0, 0,1,0]`
vertex 1 is at `(100, 0, 0)`. -/
theorem addMesh_vertices (H : Host) (self : UnrealCallbacks R) (inp : MeshInput R)
    (h3 : 3 ∣ inp.vtx.length) :
    (inp.WellFormed → (self.addMesh H inp).1 = .ok ()) ∧
    ((self.addMesh H inp).1 = .ok () →
      ∃ mesh d, (self.addMesh H inp).2.PrototypeMesh inp.prototypeId = some mesh ∧
        mesh.Description = some d ∧
        d.VertexPositions.length = inp.vtx.length / 3 ∧
        (∀ i, i < inp.vtx.length / 3 → ∃ x y z, inp.vtx[3 * i]? = some x ∧
          inp.vtx[3 * i + 1]? = some y ∧ inp.vtx[3 * i + 2]? = some z ∧
          d.VertexPositions[i]? = some ⟨x * 100, z * 100, y * 100⟩) ∧
        (inp.vtx = [0, 0, 0, 1, 0, 0, 0, 1, 0] →
          d.VertexPositions[1]? = some ⟨100, 0, 0⟩)) := by
  refine ⟨addMesh_completes H self inp, fun hok => ?_⟩
  obtain ⟨mesh, hasm, hreg⟩ := addMesh_registers H self inp hok
  obtain ⟨V, s, ⟨hV1, hV2⟩, hg, rfl⟩ := assemble_spec H self.OpaqueParent inp mesh hasm
  have hlen : V.length = inp.vtx.length / 3 := by omega
  have hgen : ∀ i, i < inp.vtx.length / 3 → ∃ x y z, inp.vtx[3 * i]? = some x ∧
      inp.vtx[3 * i + 1]? = some y ∧ inp.vtx[3 * i + 2]? = some z ∧
      s.Description.VertexPositions[i]? = some ⟨x * 100, z * 100, y * 100⟩ := by
    intro i hi
    obtain ⟨x, y, z, hx, hy, hz, hv⟩ := hV2 i (by omega)
    exact ⟨x, z, y, hx, hz, hy, by rw [hg.face.pos]; exact hv⟩
  refine ⟨_, s.Description, hreg, rfl, by rw [hg.face.pos, hlen], hgen, ?_⟩
  intro hvtx
  obtain ⟨x, y, z, hx, hy, hz, hv⟩ := hgen 1 (by rw [hvtx]; simp)
  rw [hvtx] at hx hy hz
  simp only [List.getElem?_cons_succ, List.getElem?_cons_zero, Option.some.injEq] at hx hy hz
  rw [hv, ← hx, ← hy, ← hz]
  simp

/-- Witness of C3: the three vertices of the specification's example. -/
theorem addMesh_vertices_witness :
    3 ∣ (triangle Int).vtx.length ∧
    ((emptyCallbacks Int).addMesh sampleHost (triangle Int)).1 = .ok () ∧
    ∃ mesh d,
      ((emptyCallbacks Int).addMesh sampleHost (triangle Int)).2.PrototypeMesh
        (triangle Int).prototypeId = some mesh ∧
      mesh.Description = some d ∧
      d.VertexPositions.length = (triangle Int).vtx.length / 3 ∧
      (∀ i, i < (triangle Int).vtx.length / 3 → ∃ x y z, (triangle Int).vtx[3 * i]? = some x ∧
        (triangle Int).vtx[3 * i + 1]? = some y ∧ (triangle Int).vtx[3 * i + 2]? = some z ∧
        d.VertexPositions[i]? = some ⟨x * 100, z * 100, y * 100⟩) ∧
      ((triangle Int).vtx = [0, 0, 0, 1, 0, 0, 0, 1, 0] →
        d.VertexPositions[1]? = some ⟨100, 0, 0⟩) :=
  ⟨by decide, by rfl,
    (addMesh_vertices sampleHost (emptyCallbacks Int) (triangle Int) (by decide)).2 (by rfl)⟩

/-- C4, at the failing input: on `twoUVSets` corner 0 uses UV index 0 of set 0,
that is `(1, 2)`, and UV index 2 of set 1, that is `(11, 12)`.  The completed
`addMesh` leaves `(11, -12)` in UV channel 0 and the default `(0, 0)` in UV
channel 1: every set is written to channel 0. -/
theorem addMesh_uv_channels :
    ((emptyCallbacks Int).addMesh sampleHost twoUVSets).1 = .ok () ∧
    (((emptyCallbacks Int).addMesh sampleHost twoUVSets).2.PrototypeMesh 9).bind
        (fun mesh => mesh.Description.bind
          (fun d => d.VertexInstances[0]?.map (fun vi => vi.UVs))) =
      some [⟨11, -12⟩, ⟨0, 0⟩] := by
  constructor
  · rfl
  · rfl

/-- C5, amended: `addMesh` completes on every well-formed input; and whenever
it completes, the corner at running offset `o` has the normal
`(nrm[3n], nrm[3n+2], nrm[3n+1])` with `n = normalIndices[o]`, not scaled,
provided `3n + 2` is below `2 ^ 32`, the range of the index arithmetic. -/
theorem addMesh_normals (H : Host) (self : UnrealCallbacks R) (inp : MeshInput R) :
    (inp.WellFormed → (self.addMesh H inp).1 = .ok ()) ∧
    ((self.addMesh H inp).1 = .ok () →
      ∃ mesh d, (self.addMesh H inp).2.PrototypeMesh inp.prototypeId = some mesh ∧
        mesh.Description = some d ∧
        ∀ o, o < d.VertexInstances.length → ∃ vi n, d.VertexInstances[o]? = some vi ∧
          inp.normalIndices[o]? = some n ∧
          (3 * n + 2 < 2 ^ 32 → ∃ a b c, inp.nrm[3 * n]? = some a ∧
            inp.nrm[3 * n + 1]? = some b ∧ inp.nrm[3 * n + 2]? = some c ∧
            vi.Normal = ⟨a, c, b⟩)) := by
  refine ⟨addMesh_completes H self inp, fun hok => ?_⟩
  obtain ⟨mesh, hasm, hreg⟩ := addMesh_registers H self inp hok
  obtain ⟨V, s, _, hg, rfl⟩ := assemble_spec H self.OpaqueParent inp mesh hasm
  refine ⟨_, s.Description, hreg, rfl, ?_⟩
  intro o ho
  obtain ⟨vi, hvi, ⟨_, n, hn, hx, hy, hz⟩, _⟩ :=
    hg.face.corners o (by rw [← hg.face.nvi]; exact ho)
  refine ⟨vi, n, hvi, hn, fun hlt => ?_⟩
  have e0 : wrap32 (n * 3) = 3 * n := by
    unfold wrap32; rw [Nat.mod_eq_of_lt (by omega)]; omega
  rw [e0] at hx hy hz
  have e1 : wrap32 (3 * n + 1) = 3 * n + 1 := by
    unfold wrap32; exact Nat.mod_eq_of_lt (by omega)
  have e2 : wrap32 (3 * n + 2) = 3 * n + 2 := by
    unfold wrap32; exact Nat.mod_eq_of_lt (by omega)
  rw [e1] at hz
  rw [e2] at hy
  exact ⟨_, _, _, hx, hz, hy, rfl⟩

/-- Witness of the amended C5 on the two face groups of `twoGroups`. -/
theorem addMesh_normals_witness :
    ((emptyCallbacks Int).addMesh sampleHost twoGroups).1 = .ok () ∧
    ∃ mesh d,
      ((emptyCallbacks Int).addMesh sampleHost twoGroups).2.PrototypeMesh
        twoGroups.prototypeId = some mesh ∧
      mesh.Description = some d ∧
      ∀ o, o < d.VertexInstances.length → ∃ vi n, d.VertexInstances[o]? = some vi ∧
        twoGroups.normalIndices[o]? = some n ∧
        (3 * n + 2 < 2 ^ 32 → ∃ a b c, twoGroups.nrm[3 * n]? = some a ∧
          twoGroups.nrm[3 * n + 1]? = some b ∧ twoGroups.nrm[3 * n + 2]? = some c ∧
          vi.Normal = ⟨a, c, b⟩) :=
  ⟨by rfl, (addMesh_normals sampleHost (emptyCallbacks Int) twoGroups).2 (by rfl)⟩

theorem assemble_materials_congr (H : Host) (OpaqueParent : Nat) (inp : MeshInput R)
    (ms : List (AttributeMap R)) (h : ms[0]? = inp.materials[0]?) :
    addMesh.assemble H OpaqueParent { inp with materials := ms } =
      addMesh.assemble H OpaqueParent inp := by
  have hb : addMesh.groupBody H OpaqueParent { inp with materials := ms } =
      addMesh.groupBody H OpaqueParent inp := by
    funext g s
    unfold addMesh.groupBody
    have hr : readAt ms 0 = readAt inp.materials 0 := by unfold readAt; rw [h]
    simp only [hr]
    rfl
  unfold addMesh.assemble
  simp only [hb]
  rfl

theorem assemble_no_groups (H : Host) (OpaqueParent : Nat) (inp : MeshInput R)
    (ms : List (AttributeMap R)) (h : inp.faceRanges = []) :
    addMesh.assemble H OpaqueParent { inp with materials := ms } =
      addMesh.assemble H OpaqueParent inp := by
  unfold addMesh.assemble
  simp only [h, List.length_nil, forRange]
  rfl

/-- C6: `addMesh` completes on every well-formed input; whenever it completes,
the mesh has one material slot per face group, group `g` is bound to slot `g`,
and the material of every slot is built from `materials[0]`; the outcome and
final state of `addMesh` do not depend on the entries of `materials` after the
first; and without face groups they do not depend on `materials` at all. -/
theorem addMesh_materials (H : Host) (self : UnrealCallbacks R) (inp : MeshInput R) :
    (inp.WellFormed → (self.addMesh H inp).1 = .ok ()) ∧
    ((self.addMesh H inp).1 = .ok () →
      ∃ mesh d, (self.addMesh H inp).2.PrototypeMesh inp.prototypeId = some mesh ∧
        mesh.Description = some d ∧
        mesh.StaticMaterials.length = inp.faceRanges.length ∧
        d.PolygonGroupMaterialSlotNames.length = inp.faceRanges.length ∧
        ∀ g, g < inp.faceRanges.length → ∃ m0, inp.materials[0]? = some m0 ∧
          mesh.StaticMaterials[g]? = some (CreateMaterial H self.OpaqueParent m0) ∧
          d.PolygonGroupMaterialSlotNames[g]? = some (some g)) ∧
    (∀ ms : List (AttributeMap R), ms[0]? = inp.materials[0]? →
      self.addMesh H { inp with materials := ms } = self.addMesh H inp) ∧
    (inp.faceRanges = [] → ∀ ms : List (AttributeMap R),
      self.addMesh H { inp with materials := ms } = self.addMesh H inp) := by
  refine ⟨addMesh_completes H self inp, fun hok => ?_, fun ms h => ?_, fun h ms => ?_⟩
  · obtain ⟨mesh, hasm, hreg⟩ := addMesh_registers H self inp hok
    obtain ⟨V, s, _, hg, rfl⟩ := assemble_spec H self.OpaqueParent inp mesh hasm
    exact ⟨_, s.Description, hreg, rfl, hg.nmat, hg.nslot, hg.mats⟩
  · unfold UnrealCallbacks.addMesh
    rw [assemble_materials_congr H self.OpaqueParent inp ms h]
  · unfold UnrealCallbacks.addMesh
    rw [assemble_no_groups H self.OpaqueParent inp ms h]

/-- Witness of C6: both groups of `twoGroups` get the material built from the
first attribute map. -/
theorem addMesh_materials_witness :
    ((emptyCallbacks Int).addMesh sampleHost twoGroups).1 = .ok () ∧
    ∃ mesh d,
      ((emptyCallbacks Int).addMesh sampleHost twoGroups).2.PrototypeMesh
        twoGroups.prototypeId = some mesh ∧
      mesh.Description = some d ∧
      mesh.StaticMaterials.length = twoGroups.faceRanges.length ∧
      d.PolygonGroupMaterialSlotNames.length = twoGroups.faceRanges.length ∧
      ∀ g, g < twoGroups.faceRanges.length → ∃ m0, twoGroups.materials[0]? = some m0 ∧
        mesh.StaticMaterials[g]? =
          some (CreateMaterial sampleHost (emptyCallbacks Int).OpaqueParent m0) ∧
        d.PolygonGroupMaterialSlotNames[g]? = some (some g) :=
  ⟨by rfl, (addMesh_materials sampleHost (emptyCallbacks Int) twoGroups).2.1 (by rfl)⟩

end Mesh

/-! ## Claims about the registry -/

section Map

variable {K V : Type} [DecidableEq K]

theorem TMap.Find_FindOrAdd_Add (m : TMap K (List V)) (k : K) (t : V) :
    TMap.Find (TMap.Add (TMap.FindOrAdd m k []).1 k ((TMap.FindOrAdd m k []).2 ++ [t])) k =
      some ((TMap.Find m k).getD [] ++ [t]) := by
  rw [TMap.Find_Add_self]
  unfold TMap.FindOrAdd
  cases h : TMap.Find m k <;> simp

theorem TMap.Find_FindOrAdd_Add_of_ne (m : TMap K (List V)) (k k' : K) (t : V) (hne : k' ≠ k) :
    TMap.Find (TMap.Add (TMap.FindOrAdd m k []).1 k ((TMap.FindOrAdd m k []).2 ++ [t])) k' =
      TMap.Find m k' := by
  rw [TMap.Find_Add_of_ne _ _ _ _ hne]
  unfold TMap.FindOrAdd
  cases h : TMap.Find m k
  · simp [TMap.Find_Add_of_ne _ _ _ _ hne]
  · simp

theorem TMap.length_Add_of_Contains (m : TMap K V) (k : K) (v : V)
    (h : TMap.Contains m k = true) : (TMap.Add m k v).length = m.length := by
  induction m with
  | nil => simp [TMap.Contains, TMap.Find] at h
  | cons e rest ih =>
    obtain ⟨k', v'⟩ := e
    by_cases hk : k' = k
    · simp [TMap.Add, hk]
    · have h' : TMap.Contains rest k = true := by
        simpa [TMap.Contains, TMap.Find, hk] using h
      simp [TMap.Add, hk, ih h']

end Map

section Mesh

variable {R : Type} [Ring R]

/-- C7, counterexample: after the triangle has been registered under the
prototype id 7 as mesh 0, a second `addMesh` under the id 7 completes and the
id then refers to the new mesh 1, a different mesh. -/
theorem addMesh_duplicate_counterexample :
    TMap.Find (registered Int).PrototypeMap 7 = some 0 ∧
    ((registered Int).addMesh sampleHost { twoGroups with prototypeId := 7 }).1 = .ok () ∧
    TMap.Find ((registered Int).addMesh sampleHost
      { twoGroups with prototypeId := 7 }).2.PrototypeMap 7 = some 1 ∧
    ((registered Int).addMesh sampleHost { twoGroups with prototypeId := 7 }).2.PrototypeMesh 7 ≠
      (registered Int).PrototypeMesh 7 := by
  refine ⟨by rfl, by rfl, by rfl, by decide⟩

/-- C7, amended: a prototype id that is already registered does not make
`addMesh` fail.  On well-formed input the call completes; the id, which
referred to some mesh `old`, then refers to the newly built mesh, whose handle
did not exist before; the registry has as many entries as before and the
entries of all other ids are unchanged. -/
theorem addMesh_replaces (H : Host) (self : UnrealCallbacks R) (inp : MeshInput R)
    (hpresent : TMap.Contains self.PrototypeMap inp.prototypeId = true)
    (hwf : inp.WellFormed) :
    (self.addMesh H inp).1 = .ok () ∧
    ∃ old mesh, TMap.Find self.PrototypeMap inp.prototypeId = some old ∧
      addMesh.assemble H self.OpaqueParent inp = .ok mesh ∧
      TMap.Find (self.addMesh H inp).2.PrototypeMap inp.prototypeId = some self.Meshes.length ∧
      (self.addMesh H inp).2.PrototypeMesh inp.prototypeId = some mesh ∧
      self.Meshes[self.Meshes.length]? = none ∧
      (self.addMesh H inp).2.PrototypeMap.length = self.PrototypeMap.length ∧
      ∀ k, k ≠ inp.prototypeId →
        TMap.Find (self.addMesh H inp).2.PrototypeMap k = TMap.Find self.PrototypeMap k := by
  have hok := addMesh_completes H self inp hwf
  obtain ⟨mesh, h1, h2⟩ := addMesh_ok H self inp hok
  obtain ⟨old, hold⟩ := Option.isSome_iff_exists.1 hpresent
  refine ⟨hok, old, mesh, hold, h1, ?_, ?_, by simp, ?_, ?_⟩
  · rw [h2]; exact TMap.Find_Add_self _ _ _
  · rw [h2]; simp [UnrealCallbacks.PrototypeMesh, TMap.Find_Add_self]
  · rw [h2]; exact TMap.length_Add_of_Contains _ _ _ hpresent
  · intro k hk
    rw [h2]
    exact TMap.Find_Add_of_ne _ _ _ _ hk

theorem twoGroups_wellFormed : ({ twoGroups with prototypeId := 7 } : MeshInput Int).WellFormed := by
  refine ⟨by decide, by decide, by decide, by decide, by decide, by decide, by decide,
    ?_, by decide, by decide, ?_, by decide⟩
  · intro s idx h _
    match s, h with
    | 0, h => simp [twoGroups] at h; subst h; rfl
    | s + 1, h => simp [twoGroups] at h
  · intro s idx co h1 h2
    match s, h1, h2 with
    | 0, h1, h2 =>
      simp [twoGroups] at h1 h2
      subst h1 h2
      decide
    | s + 1, h1, _ => simp [twoGroups] at h1

/-- Witness of the amended C7: the second registration under the id 7. -/
theorem addMesh_replaces_witness :
    TMap.Contains (registered Int).PrototypeMap
      ({ twoGroups with prototypeId := 7 } : MeshInput Int).prototypeId = true ∧
    ({ twoGroups with prototypeId := 7 } : MeshInput Int).WellFormed ∧
    ((registered Int).addMesh sampleHost { twoGroups with prototypeId := 7 }).1 = .ok () ∧
    ∃ old mesh, TMap.Find (registered Int).PrototypeMap
        ({ twoGroups with prototypeId := 7 } : MeshInput Int).prototypeId = some old ∧
      addMesh.assemble sampleHost (registered Int).OpaqueParent
        { twoGroups with prototypeId := 7 } = .ok mesh ∧
      TMap.Find ((registered Int).addMesh sampleHost
        { twoGroups with prototypeId := 7 }).2.PrototypeMap
          ({ twoGroups with prototypeId := 7 } : MeshInput Int).prototypeId =
        some (registered Int).Meshes.length ∧
      ((registered Int).addMesh sampleHost { twoGroups with prototypeId := 7 }).2.PrototypeMesh
        ({ twoGroups with prototypeId := 7 } : MeshInput Int).prototypeId = some mesh ∧
      (registered Int).Meshes[(registered Int).Meshes.length]? = none ∧
      ((registered Int).addMesh sampleHost
        { twoGroups with prototypeId := 7 }).2.PrototypeMap.length =
        (registered Int).PrototypeMap.length ∧
      ∀ k, k ≠ ({ twoGroups with prototypeId := 7 } : MeshInput Int).prototypeId →
        TMap.Find ((registered Int).addMesh sampleHost
          { twoGroups with prototypeId := 7 }).2.PrototypeMap k =
          TMap.Find (registered Int).PrototypeMap k :=
  ⟨by rfl, twoGroups_wellFormed,
    addMesh_replaces sampleHost (registered Int) { twoGroups with prototypeId := 7 } (by rfl)
      twoGroups_wellFormed⟩

end Mesh

/-! ## Claims about `addInstance` -/

section Instance

variable {R : Type} [LinearOrderedField R]

/-- C8: `addInstance` fails if and only if no mesh is registered under
`prototypeId`; in that case the check is what fails and the call ends in the
state in which it started, so that no instance transform is recorded. -/
theorem addInstance_unregistered (E : FMath R) (self : UnrealCallbacks R) (prototypeId : Int)
    (transform : Fin 16 → R) :
    ((self.addInstance E prototypeId transform).1 ≠ .ok () ↔
      TMap.Contains self.PrototypeMap prototypeId = false) ∧
    (TMap.Contains self.PrototypeMap prototypeId = false →
      (self.addInstance E prototypeId transform).1 = .error .checkFailed ∧
      (self.addInstance E prototypeId transform).2 = self ∧
      (self.addInstance E prototypeId transform).2.Instances = self.Instances) := by
  unfold UnrealCallbacks.addInstance
  cases h : TMap.Find self.PrototypeMap prototypeId with
  | none => simp [TMap.Contains, h]
  | some mesh => simp [TMap.Contains, h]

theorem addInstance_registered (E : FMath R) (self : UnrealCallbacks R) (prototypeId : Int)
    (transform : Fin 16 → R) (mesh : Nat)
    (hreg : TMap.Find self.PrototypeMap prototypeId = some mesh) :
    self.addInstance E prototypeId transform =
      (.ok (), { self with Instances :=
        (TMap.Add (TMap.FindOrAdd self.Instances mesh []).1 mesh
          ((TMap.FindOrAdd self.Instances mesh []).2 ++ [addInstance.Transform E transform])) }) := by
  unfold UnrealCallbacks.addInstance
  simp [TMap.Contains, hreg]

/-- C9: when `prototypeId` is registered, `addInstance` completes and appends
exactly one transform at the end of the instance list of the registered mesh
(the list is created when absent); the instance lists of all other meshes, the
prototype map and the meshes are unchanged. -/
theorem addInstance_appends (E : FMath R) (self : UnrealCallbacks R) (prototypeId : Int)
    (transform : Fin 16 → R) (mesh : Nat)
    (hreg : TMap.Find self.PrototypeMap prototypeId = some mesh) :
    (self.addInstance E prototypeId transform).1 = .ok () ∧
    TMap.Find (self.addInstance E prototypeId transform).2.Instances mesh =
      some ((TMap.Find self.Instances mesh).getD [] ++ [addInstance.Transform E transform]) ∧
    (∀ other, other ≠ mesh →
      TMap.Find (self.addInstance E prototypeId transform).2.Instances other =
        TMap.Find self.Instances other) ∧
    (self.addInstance E prototypeId transform).2.PrototypeMap = self.PrototypeMap ∧
    (self.addInstance E prototypeId transform).2.Meshes = self.Meshes := by
  rw [addInstance_registered E self prototypeId transform mesh hreg]
  exact ⟨rfl, TMap.Find_FindOrAdd_Add _ _ _,
    fun other hne => TMap.Find_FindOrAdd_Add_of_ne _ _ _ _ hne, rfl, rfl⟩

end Instance

section Instance

variable {R : Type} [LinearOrderedField R]

/-- The matrix that `addInstance` builds from a pure translation. -/
theorem translation_matrix (tx ty tz : R) :
    FMatrix.ofPlanes (GetRow (translationArray tx ty tz) 0) (GetRow (translationArray tx ty tz) 1)
      (GetRow (translationArray tx ty tz) 2) (GetRow (translationArray tx ty tz) 3) =
    ⟨fun i j =>
      match i, j with
      | 0, 0 => 1 | 0, 1 => 0 | 0, 2 => 0 | 0, 3 => tx
      | 1, 0 => 0 | 1, 1 => 1 | 1, 2 => 0 | 1, 3 => ty
      | 2, 0 => 0 | 2, 1 => 0 | 2, 2 => 1 | 2, 3 => tz
      | 3, 0 => 0 | 3, 1 => 0 | 3, 2 => 0 | 3, 3 => 1⟩ := by
  unfold FMatrix.ofPlanes
  congr 1
  funext i j
  fin_cases i <;> fin_cases j <;> rfl

theorem translation_transform (E : FMath R) (hs : E.Sqrt 1 = 1) (hi1 : E.InvSqrt 1 = 1)
    (hi4 : E.InvSqrt 4 = 1 / 2) (tx ty tz : R) :
    addInstance.Transform E (translationArray tx ty tz) =
      ⟨⟨0, 0, 0, 1⟩, ⟨tx * 100, tz * 100, ty * 100⟩, ⟨1, 1, 1⟩⟩ := by
  have hsmall : (SMALL_NUMBER : R) < 1 := by
    unfold SMALL_NUMBER; rw [div_lt_one (by norm_num)]; norm_num
  have hkinda : (KINDA_SMALL_NUMBER : R) < 1 := by
    unfold KINDA_SMALL_NUMBER; rw [div_lt_one (by norm_num)]; norm_num
  have hkinda0 : (0 : R) ≤ KINDA_SMALL_NUMBER := by
    unfold KINDA_SMALL_NUMBER; positivity
  unfold addInstance.Transform
  rw [translation_matrix]
  have hdet : FMatrix.Determinant (⟨fun i j =>
      match i, j with
      | 0, 0 => 1 | 0, 1 => 0 | 0, 2 => 0 | 0, 3 => tx
      | 1, 0 => 0 | 1, 1 => 1 | 1, 2 => 0 | 1, 3 => ty
      | 2, 0 => 0 | 2, 1 => 0 | 2, 2 => 1 | 2, 3 => tz
      | 3, 0 => 0 | 3, 1 => 0 | 3, 2 => 0 | 3, 3 => 1⟩ : FMatrix R) = 1 := by
    simp [FMatrix.Determinant]
  simp only [hdet]
  have hsign : FMath.Sign (1 : R) = 1 := by simp [FMath.Sign]
  simp only [hsign, Int.cast_one]
  have hss : ∀ i : Fin 4, i.val < 3 → FMatrix.SquareSum (⟨fun i j =>
      match i, j with
      | 0, 0 => 1 | 0, 1 => 0 | 0, 2 => 0 | 0, 3 => tx
      | 1, 0 => 0 | 1, 1 => 1 | 1, 2 => 0 | 1, 3 => ty
      | 2, 0 => 0 | 2, 1 => 0 | 2, 2 => 1 | 2, 3 => tz
      | 3, 0 => 0 | 3, 1 => 0 | 3, 2 => 0 | 3, 3 => 1⟩ : FMatrix R) i = 1 := by
    intro i hi
    fin_cases i <;> first | exact absurd hi (by decide) | simp [FMatrix.SquareSum]
  have hscale : FMatrix.GetScaleVector E (⟨fun i j =>
      match i, j with
      | 0, 0 => 1 | 0, 1 => 0 | 0, 2 => 0 | 0, 3 => tx
      | 1, 0 => 0 | 1, 1 => 1 | 1, 2 => 0 | 1, 3 => ty
      | 2, 0 => 0 | 2, 1 => 0 | 2, 2 => 1 | 2, 3 => tz
      | 3, 0 => 0 | 3, 1 => 0 | 3, 2 => 0 | 3, 3 => 1⟩ : FMatrix R) = ⟨1, 1, 1⟩ := by
    unfold FMatrix.GetScaleVector
    simp only [hss 0 (by decide), hss 1 (by decide), hss 2 (by decide), hs, gt_iff_lt, hsmall,
      if_true]
  have hws : (((FMatrix.GetMatrixWithoutScale E (⟨fun i j =>
      match i, j with
      | 0, 0 => 1 | 0, 1 => 0 | 0, 2 => 0 | 0, 3 => tx
      | 1, 0 => 0 | 1, 1 => 1 | 1, 2 => 0 | 1, 3 => ty
      | 2, 0 => 0 | 2, 1 => 0 | 2, 2 => 1 | 2, 3 => tz
      | 3, 0 => 0 | 3, 1 => 0 | 3, 2 => 0 | 3, 3 => 1⟩ : FMatrix R)).scale 1).set 3 3 1) =
      (⟨fun i j =>
      match i, j with
      | 0, 0 => 1 | 0, 1 => 0 | 0, 2 => 0 | 0, 3 => tx
      | 1, 0 => 0 | 1, 1 => 1 | 1, 2 => 0 | 1, 3 => ty
      | 2, 0 => 0 | 2, 1 => 0 | 2, 2 => 1 | 2, 3 => tz
      | 3, 0 => 0 | 3, 1 => 0 | 3, 2 => 0 | 3, 3 => 1⟩ : FMatrix R) := by
    unfold FMatrix.GetMatrixWithoutScale FMatrix.scale FMatrix.set
    congr 1
    funext i j
    have hsel : FMath.FloatSelect ((1 : R) - SMALL_NUMBER) (E.InvSqrt 1) 1 = 1 := by
      unfold FMath.FloatSelect
      rw [if_pos (by linarith), hi1]
    fin_cases i <;> fin_cases j <;> simp [hss, hsel]
  rw [hws, hscale]
  have hquat : FMatrix.ToQuat E (⟨fun i j =>
      match i, j with
      | 0, 0 => 1 | 0, 1 => 0 | 0, 2 => 0 | 0, 3 => tx
      | 1, 0 => 0 | 1, 1 => 1 | 1, 2 => 0 | 1, 3 => ty
      | 2, 0 => 0 | 2, 1 => 0 | 2, 2 => 1 | 2, 3 => tz
      | 3, 0 => 0 | 3, 1 => 0 | 3, 2 => 0 | 3, 3 => 1⟩ : FMatrix R) = ⟨0, 0, 0, 1⟩ := by
    have hnz : ¬ (1 : R) ≤ KINDA_SMALL_NUMBER := not_le.2 hkinda
    have h4 : (1 : R) + 1 + 1 + 1 = 4 := by norm_num
    have htr : (0 : R) < 1 + 1 + 1 := by norm_num
    unfold FMatrix.ToQuat
    simp [FMatrix.AxisIsNearlyZero, FMatrix.AxisIsUnit, hss, hnz, hkinda0, h4, hi4, htr]
  rw [hquat]
  simp [FVector.scale]

/-- C10: for a pure translation by `(tx, ty, tz)`, given as the flat array with
the identity in the upper-left 3x3, the translation at the indices 12, 13, 14
and the homogeneous entry 1, `addInstance` on a registered prototype id
records the identity quaternion `(0, 0, 0, 1)`, the scale `(1, 1, 1)` and the
translation `(tx, tz, ty) * 100`.  The square root functions of the engine are
assumed exact at 1 and 4. -/
theorem addInstance_translation (E : FMath R) (hs : E.Sqrt 1 = 1) (hi1 : E.InvSqrt 1 = 1)
    (hi4 : E.InvSqrt 4 = 1 / 2) (self : UnrealCallbacks R) (prototypeId : Int) (mesh : Nat)
    (hreg : TMap.Find self.PrototypeMap prototypeId = some mesh) (tx ty tz : R) :
    (self.addInstance E prototypeId (translationArray tx ty tz)).1 = .ok () ∧
    TMap.Find (self.addInstance E prototypeId (translationArray tx ty tz)).2.Instances mesh =
      some ((TMap.Find self.Instances mesh).getD [] ++
        [⟨⟨0, 0, 0, 1⟩, ⟨tx * 100, tz * 100, ty * 100⟩, ⟨1, 1, 1⟩⟩]) := by
  rw [addInstance_registered E self prototypeId _ mesh hreg,
    translation_transform E hs hi1 hi4]
  exact ⟨rfl, TMap.Find_FindOrAdd_Add _ _ _⟩

end Instance

theorem rat_sqrt_one : Rat.sqrt 1 = 1 := by
  have h := Rat.sqrt_eq 1
  rw [abs_of_nonneg (by norm_num), mul_one] at h
  exact h

theorem rat_sqrt_four : Rat.sqrt 4 = 2 := by
  have h := Rat.sqrt_eq 2
  rw [abs_of_nonneg (by norm_num)] at h
  rw [← h]; norm_num

/-- Witness of C9: one instance of the registered triangle. -/
theorem addInstance_appends_witness :
    TMap.Find (registered ℚ).PrototypeMap 7 = some 0 ∧
    ((registered ℚ).addInstance sampleMath 7 (translationArray 5 6 7)).1 = .ok () ∧
    TMap.Find ((registered ℚ).addInstance sampleMath 7 (translationArray 5 6 7)).2.Instances 0 =
      some ((TMap.Find (registered ℚ).Instances 0).getD [] ++
        [addInstance.Transform sampleMath (translationArray 5 6 7)]) ∧
    (∀ other, other ≠ 0 →
      TMap.Find ((registered ℚ).addInstance sampleMath 7
        (translationArray 5 6 7)).2.Instances other =
        TMap.Find (registered ℚ).Instances other) ∧
    ((registered ℚ).addInstance sampleMath 7 (translationArray 5 6 7)).2.PrototypeMap =
      (registered ℚ).PrototypeMap ∧
    ((registered ℚ).addInstance sampleMath 7 (translationArray 5 6 7)).2.Meshes =
      (registered ℚ).Meshes :=
  ⟨by rfl, addInstance_appends sampleMath (registered ℚ) 7 (translationArray 5 6 7) 0 (by rfl)⟩

/-- Witness of C10: the translation by `(5, 6, 7)` is recorded as
`(500, 700, 600)`. -/
theorem addInstance_translation_witness :
    sampleMath.Sqrt 1 = 1 ∧ sampleMath.InvSqrt 1 = 1 ∧ sampleMath.InvSqrt 4 = 1 / 2 ∧
    TMap.Find (registered ℚ).PrototypeMap 7 = some 0 ∧
    ((registered ℚ).addInstance sampleMath 7 (translationArray 5 6 7)).1 = .ok () ∧
    TMap.Find ((registered ℚ).addInstance sampleMath 7 (translationArray 5 6 7)).2.Instances 0 =
      some ((TMap.Find (registered ℚ).Instances 0).getD [] ++
        [⟨⟨0, 0, 0, 1⟩, ⟨5 * 100, 7 * 100, 6 * 100⟩, ⟨1, 1, 1⟩⟩]) :=
  have h1 : sampleMath.Sqrt 1 = 1 := rat_sqrt_one
  have h2 : sampleMath.InvSqrt 1 = 1 := by
    show (1 : ℚ) / Rat.sqrt 1 = 1
    rw [rat_sqrt_one]; norm_num
  have h3 : sampleMath.InvSqrt 4 = 1 / 2 := by
    show (1 : ℚ) / Rat.sqrt 4 = 1 / 2
    rw [rat_sqrt_four]
  ⟨h1, h2, h3, by rfl,
    addInstance_translation sampleMath h1 h2 h3 (registered ℚ) 7 0 (by rfl) 5 6 7⟩

/-! ## Claims about the axis swap -/

section Swap

variable {R : Type} [LinearOrderedField R]

/-- C12: the Y/Z swap is an involution, on vectors and on quaternions; it is
the swap of the code: the vertex loop of `addMesh` stores the swapped triple
times 100, and the rotation recorded by `addInstance` is the remapped
quaternion of the matrix handed to `ToQuat`. -/
theorem swapYZ_involution :
    (∀ v : FVector R, v.swapYZ.swapYZ = v) ∧
    (∀ q : FQuat R, q.swapYZ.swapYZ = q) ∧
    (∀ (inp : MeshInput R) (i : Nat) (d d' : FMeshDescription R),
      addMesh.vertexBody inp i d = .ok d' →
      ∃ x y z, inp.vtx[3 * i]? = some x ∧ inp.vtx[3 * i + 1]? = some y ∧
        inp.vtx[3 * i + 2]? = some z ∧
        d'.VertexPositions = d.VertexPositions ++ [(FVector.swapYZ ⟨x, y, z⟩).scale 100]) ∧
    (∀ (E : FMath R) (transform : Fin 16 → R),
      (addInstance.Transform E transform).Rotation =
        FQuat.swapYZ ((addInstance.RotationMat E transform).ToQuat E)) := by
  refine ⟨fun v => rfl, fun q => rfl, ?_, fun E transform => rfl⟩
  intro inp i d d' h
  obtain ⟨x, y, z, hx, hy, hz, e⟩ := vertexBody_spec inp i d d' h
  exact ⟨x, z, y, hx, hz, hy, by rw [e]; rfl⟩

end Swap

/-! ## Claims about degenerate and well-formed input of `addMesh` -/

theorem sum_eq_zero_get (l : List Nat) (h : l.sum = 0) (j n : Nat) (hj : l[j]? = some n) :
    n = 0 := by
  have hmem : n ∈ l := by
    obtain ⟨hlt, he⟩ := List.getElem?_eq_some_iff.1 hj
    rw [← he]
    exact List.getElem_mem hlt
  have := List.sum_eq_zero_iff.1 h n hmem
  exact this

/-- In the description left by the polygon loops every corner refers to an
existing vertex and every polygon to existing corners. -/
theorem groupInv_sound {R : Type} (H : Host) (OpaqueParent : Nat) (inp : MeshInput R)
    (V : List (FVector R)) (s : Assembly R) (hg : GroupInv H OpaqueParent inp V inp.faceRanges.length s) :
    (∀ vi ∈ s.Description.VertexInstances, vi.VertexID < s.Description.VertexPositions.length) ∧
    (∀ p ∈ s.Description.Polygons, ∀ id ∈ p.VertexInstanceIDs,
      id < s.Description.VertexInstances.length) := by
  constructor
  · intro vi hvi
    obtain ⟨o, ho, hget⟩ := List.getElem_of_mem hvi
    obtain ⟨vi', hvi', _, _, hlt⟩ := hg.face.corners o (by rw [← hg.face.nvi]; exact ho)
    rw [List.getElem?_eq_getElem ho, hget] at hvi'
    cases hvi'
    rw [hg.face.pos]
    exact hlt
  · intro p hp id hid
    obtain ⟨j, hj, hget⟩ := List.getElem_of_mem hp
    have hj' : j < faceStart inp inp.faceRanges.length := by rw [← hg.face.npoly]; exact hj
    obtain ⟨n, p', hn, hp', hids⟩ := hg.face.polys j hj'
    rw [List.getElem?_eq_getElem hj, hget] at hp'
    cases hp'
    rw [hids, List.mem_range'_1] at hid
    have h1 : cornerOffset inp (j + 1) = cornerOffset inp j + n := sum_take_succ_of_get _ _ _ hn
    have h2 : cornerOffset inp (j + 1) ≤ cornerOffset inp (faceStart inp inp.faceRanges.length) :=
      sum_take_mono _ _ _ (by omega)
    rw [hg.face.nvi]
    omega

section Mesh

variable {R : Type} [Ring R]

/-- C16: under the data-model invariants `addMesh` completes, that is, no read
leaves the bounds of its array and no corner is created for a missing vertex;
in the registered mesh every corner refers to an existing vertex and every
polygon to existing corners. -/
theorem addMesh_in_bounds (H : Host) (self : UnrealCallbacks R) (inp : MeshInput R)
    (hwf : inp.WellFormed) :
    (self.addMesh H inp).1 = .ok () ∧
    (self.addMesh H inp).1 ≠ .error .outOfBounds ∧
    (self.addMesh H inp).1 ≠ .error .invalidElement ∧
    ∃ mesh d, (self.addMesh H inp).2.PrototypeMesh inp.prototypeId = some mesh ∧
      mesh.Description = some d ∧
      (∀ vi ∈ d.VertexInstances, vi.VertexID < d.VertexPositions.length) ∧
      (∀ p ∈ d.Polygons, ∀ id ∈ p.VertexInstanceIDs, id < d.VertexInstances.length) := by
  have hok := addMesh_completes H self inp hwf
  obtain ⟨mesh, hasm, hreg⟩ := addMesh_registers H self inp hok
  obtain ⟨V, s, _, hg, rfl⟩ := assemble_spec H self.OpaqueParent inp mesh hasm
  obtain ⟨h1, h2⟩ := groupInv_sound H self.OpaqueParent inp V s hg
  refine ⟨hok, ?_, ?_, _, s.Description, hreg, rfl, h1, h2⟩
  · rw [hok]; simp
  · rw [hok]; simp

theorem twoGroups_wf : twoGroups.WellFormed := by
  have h := twoGroups_wellFormed
  exact ⟨h.vtx3, h.nrm3, h.faces, h.nvertexIndices, h.nnormalIndices, h.nuvIndexSets, h.nuvSets,
    h.nuvIndices, h.vertexRange, h.normalRange, h.uvRange, h.material⟩

/-- Witness of C16 on the two face groups of `twoGroups`. -/
theorem addMesh_in_bounds_witness :
    twoGroups.WellFormed ∧
    ((emptyCallbacks Int).addMesh sampleHost twoGroups).1 = .ok () ∧
    ((emptyCallbacks Int).addMesh sampleHost twoGroups).1 ≠ .error .outOfBounds ∧
    ((emptyCallbacks Int).addMesh sampleHost twoGroups).1 ≠ .error .invalidElement ∧
    ∃ mesh d,
      ((emptyCallbacks Int).addMesh sampleHost twoGroups).2.PrototypeMesh
        twoGroups.prototypeId = some mesh ∧
      mesh.Description = some d ∧
      (∀ vi ∈ d.VertexInstances, vi.VertexID < d.VertexPositions.length) ∧
      (∀ p ∈ d.Polygons, ∀ id ∈ p.VertexInstanceIDs, id < d.VertexInstances.length) :=
  ⟨twoGroups_wf, addMesh_in_bounds sampleHost (emptyCallbacks Int) twoGroups twoGroups_wf⟩

/-- C13: zero faces or zero vertices is not an error. On input that satisfies
the invariants of the data model and has zero faces (no face group, or only
groups of size 0) or an empty vertex array, `addMesh` completes and registers
a mesh under the prototype id. The mesh has no corner; no corner refers to a
missing vertex and no polygon to a missing corner; every polygon is without
corners; with zero faces, and also when every face of the input has at least
three corners as the data model requires of a polygon, it has no polygon;
with an empty vertex array it has no vertex. -/
theorem addMesh_degenerate (H : Host) (self : UnrealCallbacks R) (inp : MeshInput R)
    (hwf : inp.WellFormed) (hdeg : inp.faceRanges.sum = 0 ∨ inp.vtx = []) :
    (self.addMesh H inp).1 = .ok () ∧
    ∃ mesh d, (self.addMesh H inp).2.PrototypeMesh inp.prototypeId = some mesh ∧
      mesh.Description = some d ∧
      d.VertexInstances = [] ∧
      (∀ vi ∈ d.VertexInstances, vi.VertexID < d.VertexPositions.length) ∧
      (∀ p ∈ d.Polygons, ∀ id ∈ p.VertexInstanceIDs, id < d.VertexInstances.length) ∧
      (∀ p ∈ d.Polygons, p.VertexInstanceIDs = []) ∧
      (inp.faceRanges.sum = 0 → d.Polygons = []) ∧
      ((∀ c ∈ inp.faceVertexCounts, 3 ≤ c) → d.Polygons = []) ∧
      (inp.vtx = [] → d.VertexPositions = []) := by
  have hok := addMesh_completes H self inp hwf
  obtain ⟨mesh, hasm, hreg⟩ := addMesh_registers H self inp hok
  obtain ⟨V, s, ⟨hV, _⟩, hg, rfl⟩ := assemble_spec H self.OpaqueParent inp mesh hasm
  have hsum : inp.faceVertexCounts.sum = 0 := by
    rcases hdeg with h | h
    · have hl : inp.faceVertexCounts.length = 0 := by rw [← hwf.faces]; exact h
      rw [List.length_eq_zero] at hl
      rw [hl]; rfl
    · rw [← hwf.nvertexIndices, List.length_eq_zero]
      apply List.eq_nil_iff_forall_not_mem.2
      intro v hv
      have := hwf.vertexRange v hv
      rw [h] at this
      simp at this
  have hvi : s.Description.VertexInstances = [] := by
    rw [← List.length_eq_zero, hg.face.nvi, faceStart_length, hwf.faces, cornerOffset_length, hsum]
  have hcorners : ∀ p ∈ s.Description.Polygons, p.VertexInstanceIDs = [] := by
    intro p hp
    obtain ⟨j, hj, hget⟩ := List.getElem_of_mem hp
    have hj' : j < faceStart inp inp.faceRanges.length := by rw [← hg.face.npoly]; exact hj
    obtain ⟨n, p', hn, hp', hids⟩ := hg.face.polys j hj'
    rw [List.getElem?_eq_getElem hj, hget] at hp'
    cases hp'
    have hn0 := sum_eq_zero_get _ hsum j n hn
    rw [hids, hn0]; rfl
  have hnone : inp.faceRanges.sum = 0 → s.Description.Polygons = [] := by
    intro h
    rw [← List.length_eq_zero, hg.face.npoly, faceStart_length, h]
  refine ⟨hok, _, s.Description, hreg, rfl, hvi, ?_, ?_, hcorners, hnone, ?_, ?_⟩
  · intro vi h; rw [hvi] at h; cases h
  · intro p hp id hid
    rw [hcorners p hp] at hid; cases hid
  · intro h3
    apply hnone
    rw [hwf.faces, List.length_eq_zero]
    apply List.eq_nil_iff_forall_not_mem.2
    intro c hc
    have h0 : c = 0 := List.sum_eq_zero_iff.1 hsum c hc
    have := h3 c hc
    omega
  · intro h
    rw [hg.face.pos, ← List.length_eq_zero, hV, h]; simp

theorem emptyGroups_wellFormed : emptyGroups.WellFormed := by
  refine ⟨by decide, by decide, by decide, by decide, by decide, by decide, by decide,
    ?_, by decide, by decide, ?_, by decide⟩
  · intro s idx h; simp [emptyGroups] at h
  · intro s idx co h; simp [emptyGroups] at h

/-- Witness of C13: three vertices and two face groups of size 0. -/
theorem addMesh_degenerate_witness :
    emptyGroups.WellFormed ∧ (emptyGroups.faceRanges.sum = 0 ∨ emptyGroups.vtx = []) ∧
    ((emptyCallbacks Int).addMesh sampleHost emptyGroups).1 = .ok () ∧
    ∃ mesh d,
      ((emptyCallbacks Int).addMesh sampleHost emptyGroups).2.PrototypeMesh
        emptyGroups.prototypeId = some mesh ∧
      mesh.Description = some d ∧
      d.VertexInstances = [] ∧
      (∀ vi ∈ d.VertexInstances, vi.VertexID < d.VertexPositions.length) ∧
      (∀ p ∈ d.Polygons, ∀ id ∈ p.VertexInstanceIDs, id < d.VertexInstances.length) ∧
      (∀ p ∈ d.Polygons, p.VertexInstanceIDs = []) ∧
      (emptyGroups.faceRanges.sum = 0 → d.Polygons = []) ∧
      ((∀ c ∈ emptyGroups.faceVertexCounts, 3 ≤ c) → d.Polygons = []) ∧
      (emptyGroups.vtx = [] → d.VertexPositions = []) :=
  ⟨emptyGroups_wellFormed, Or.inl (by decide),
    addMesh_degenerate sampleHost (emptyCallbacks Int) emptyGroups emptyGroups_wellFormed
      (Or.inl (by decide))⟩

end Mesh

/-! ## Claims about the attribute callbacks -/

section Attr

variable {R : Type}

theorem call_status (self : UnrealCallbacks R) (c : AttrCall R) :
    (self.call c).1 = .STATUS_OK := by
  cases c <;> rfl

theorem call_get (self : UnrealCallbacks R) (c : AttrCall R) (key : String) :
    (self.call c).2.AttributeMapBuilder.get key =
      if c.key = key then some c.value else self.AttributeMapBuilder.get key := by
  have h : (self.call c).2.AttributeMapBuilder = self.AttributeMapBuilder.set c.key c.value := by
    cases c <;> rfl
  rw [h]
  unfold AttributeMap.get AttributeMap.set
  by_cases hk : c.key = key
  · subst hk
    simp [TMap.Find_Add_self]
  · rw [if_neg hk]
    exact TMap.Find_Add_of_ne _ _ _ _ (fun e => hk e.symm)

theorem callAll_spec (cs : List (AttrCall R)) : ∀ (self : UnrealCallbacks R),
    (∀ st ∈ (self.callAll cs).1, st = .STATUS_OK) ∧
    (self.callAll cs).1.length = cs.length ∧
    ∀ key, (self.callAll cs).2.AttributeMapBuilder.get key =
      lastValue key (self.AttributeMapBuilder.get key) cs := by
  induction cs with
  | nil => intro self; simp [UnrealCallbacks.callAll, lastValue]
  | cons c cs ih =>
    intro self
    obtain ⟨h1, h2, h3⟩ := ih (self.call c).2
    refine ⟨?_, ?_, ?_⟩
    · intro st hst
      simp only [UnrealCallbacks.callAll, List.mem_cons] at hst
      rcases hst with hst | hst
      · rw [hst]; exact call_status self c
      · exact h1 st hst
    · simp [UnrealCallbacks.callAll, h2]
    · intro key
      simp only [UnrealCallbacks.callAll]
      rw [h3 key, call_get]
      rfl

/-- C14: every attribute callback of a sequence returns `STATUS_OK`, and after
the sequence the value readable under a key is the value passed by the last
call made with that key (the earlier value when no call used the key); two
calls with the same key leave the second value readable. -/
theorem attr_last_write_wins (self : UnrealCallbacks R) (calls : List (AttrCall R)) :
    (∀ st ∈ (self.callAll calls).1, st = .STATUS_OK) ∧
    (self.callAll calls).1.length = calls.length ∧
    (∀ key, (self.callAll calls).2.AttributeMapBuilder.get key =
      lastValue key (self.AttributeMapBuilder.get key) calls) ∧
    (∀ c1 c2 : AttrCall R, c1.key = c2.key →
      (self.callAll [c1, c2]).2.AttributeMapBuilder.get c2.key = some c2.value) := by
  obtain ⟨h1, h2, h3⟩ := callAll_spec calls self
  refine ⟨h1, h2, h3, fun c1 c2 hk => ?_⟩
  rw [(callAll_spec [c1, c2] self).2.2 c2.key]
  simp [lastValue]

end Attr

/-! ## Claims about `CreateMaterial` -/

theorem GetTexture_loop_first (H : Host) (uris : List String) (uri : String)
    (h : uris.find? (fun u => decide (u.length > 0)) = some uri) :
    GetTexture.loop H uris = LoadImageFromDisk H uri := by
  induction uris with
  | nil => simp at h
  | cons u rest ih =>
    unfold GetTexture.loop
    by_cases hu : u.length > 0
    · rw [if_pos hu]
      simp only [List.find?_cons, hu, decide_True] at h
      cases h
      rfl
    · rw [if_neg hu]
      simp only [List.find?_cons, hu, decide_False] at h
      exact ih h

theorem LoadImageFromDisk_missing (H : Host) (ImagePath : String)
    (h : H.FileExists ImagePath = false) : LoadImageFromDisk H ImagePath = none := by
  unfold LoadImageFromDisk
  simp [h]

theorem SetTextureParameterValue_names (m : UMaterialInstanceDynamic) (Name : String)
    (Value : Option UTexture2D) (P : String × Option UTexture2D → Prop)
    (hm : ∀ p ∈ m.TextureParameterValues, P p) (hnew : P (Name, Value)) :
    ∀ p ∈ (m.SetTextureParameterValue Name Value).TextureParameterValues, P p := by
  unfold UMaterialInstanceDynamic.SetTextureParameterValue
  split
  · intro p hp
    simp only [List.mem_map] at hp
    obtain ⟨q, hq, rfl⟩ := hp
    split
    · exact hnew
    · exact hm q hq
  · intro p hp
    simp only [List.mem_append, List.mem_singleton] at hp
    rcases hp with hp | hp
    · exact hm p hp
    · rw [hp]; exact hnew

theorem CreateMaterial_loop_params {R : Type} (H : Host) (attrs : AttributeMap R)
    (P : String × Option UTexture2D → Prop)
    (hnew : P ("diffuseMap", GetTexture H attrs "diffuseMap")) (keys : List String) :
    ∀ m : UMaterialInstanceDynamic, (∀ p ∈ m.TextureParameterValues, P p) →
      ∀ p ∈ (CreateMaterial.loop H attrs keys m).TextureParameterValues, P p := by
  induction keys with
  | nil => intro m hm; exact hm
  | cons k rest ih =>
    intro m hm
    unfold CreateMaterial.loop
    split
    · rename_i hk
      subst hk
      exact ih _ (SetTextureParameterValue_names m _ _ P hm hnew)
    · exact ih m hm

theorem CreateMaterial_loop_parent {R : Type} (H : Host) (attrs : AttributeMap R)
    (keys : List String) :
    ∀ m : UMaterialInstanceDynamic, (CreateMaterial.loop H attrs keys m).Parent = m.Parent := by
  induction keys with
  | nil => intro m; rfl
  | cons k rest ih =>
    intro m
    unfold CreateMaterial.loop
    split
    · rw [ih]
      unfold UMaterialInstanceDynamic.SetTextureParameterValue
      split <;> rfl
    · exact ih m

theorem CreateMaterial_loop_other {R : Type} (H : Host) (attrs : AttributeMap R)
    (keys : List String) (hkeys : "diffuseMap" ∉ keys) :
    ∀ m : UMaterialInstanceDynamic, CreateMaterial.loop H attrs keys m = m := by
  induction keys with
  | nil => intro m; rfl
  | cons k rest ih =>
    intro m
    unfold CreateMaterial.loop
    have hk : k ≠ "diffuseMap" := fun e => hkeys (by rw [e]; exact List.mem_cons_self _ _)
    rw [if_neg hk]
    exact ih (fun h => hkeys (List.mem_cons_of_mem _ h)) m

theorem TMap.Find_join_none {K V : Type} [DecidableEq K] (m : TMap K (Option V))
    (h : ∀ p ∈ m, p.2 = none) (k : K) : (TMap.Find m k).join = none := by
  induction m with
  | nil => rfl
  | cons e rest ih =>
    obtain ⟨k', v'⟩ := e
    unfold TMap.Find
    split
    · have := h (k', v') (List.mem_cons_self _ _)
      simp only at this
      rw [this]; rfl
    · exact ih (fun p hp => h p (List.mem_cons_of_mem _ hp))

theorem TMap.Find_none_of_keys {K V : Type} [DecidableEq K] (m : TMap K V) (k : K)
    (h : ∀ p ∈ m, p.1 ≠ k) : TMap.Find m k = none := by
  induction m with
  | nil => rfl
  | cons e rest ih =>
    obtain ⟨k', v'⟩ := e
    unfold TMap.Find
    rw [if_neg (h (k', v') (List.mem_cons_self _ _))]
    exact ih (fun p hp => h p (List.mem_cons_of_mem _ hp))

/-- C15: `CreateMaterial` is total: for every attribute map it returns a
material instance of the given parent.  Only the key `diffuseMap` sets a
parameter: every parameter of the instance is named `diffuseMap`, no other
name has a texture, and without that key the instance has no parameter.  When
the first non-empty URI under `diffuseMap` names a file that does not exist,
the instance has no texture under `diffuseMap`. -/
theorem CreateMaterial_degrades {R : Type} (H : Host) (Parent : Nat) (attrs : AttributeMap R) :
    (CreateMaterial H Parent attrs).Parent = Parent ∧
    (∀ p ∈ (CreateMaterial H Parent attrs).TextureParameterValues, p.1 = "diffuseMap") ∧
    (∀ Name, Name ≠ "diffuseMap" → (CreateMaterial H Parent attrs).Texture Name = none) ∧
    ("diffuseMap" ∉ attrs.getKeys → (CreateMaterial H Parent attrs).TextureParameterValues = []) ∧
    (∀ uri, (attrs.getStringArray "diffuseMap").find? (fun u => decide (u.length > 0)) = some uri →
      H.FileExists uri = false →
      (CreateMaterial H Parent attrs).Texture "diffuseMap" = none) := by
  have hnames : ∀ p ∈ (CreateMaterial H Parent attrs).TextureParameterValues,
      p.1 = "diffuseMap" :=
    CreateMaterial_loop_params H attrs (fun p => p.1 = "diffuseMap") rfl _ ⟨Parent, []⟩
      (fun p hp => by cases hp)
  refine ⟨?_, hnames, ?_, ?_, ?_⟩
  · unfold CreateMaterial
    rw [CreateMaterial_loop_parent]
  · intro Name hne
    unfold UMaterialInstanceDynamic.Texture
    rw [TMap.Find_none_of_keys _ _ (fun p hp => by rw [hnames p hp]; exact fun e => hne e.symm)]
    rfl
  · intro hkeys
    unfold CreateMaterial
    rw [CreateMaterial_loop_other H attrs _ hkeys]
  · intro uri huri hmissing
    have hget : GetTexture H attrs "diffuseMap" = none := by
      unfold GetTexture
      rw [GetTexture_loop_first H _ uri huri]
      exact LoadImageFromDisk_missing H uri hmissing
    unfold UMaterialInstanceDynamic.Texture
    apply TMap.Find_join_none
    exact CreateMaterial_loop_params H attrs (fun p => p.2 = none) hget _ ⟨Parent, []⟩
      (fun p hp => by cases hp)

/-- Witness of C15: the diffuse map of `missingTexture` refers to
`missing.png`, which the sample host does not have. -/
theorem CreateMaterial_degrades_witness :
    (missingTexture.getStringArray "diffuseMap").find? (fun u => decide (u.length > 0)) =
      some "missing.png" ∧
    sampleHost.FileExists "missing.png" = false ∧
    (CreateMaterial sampleHost 0 missingTexture).TextureParameterValues =
      [("diffuseMap", none)] ∧
    (CreateMaterial sampleHost 0 missingTexture).Texture "diffuseMap" = none :=
  ⟨by decide, rfl, by decide,
    (CreateMaterial_degrades sampleHost 0 missingTexture).2.2.2.2 "missing.png" (by decide) rfl⟩

/-! ## Claims about the determinant sign in `addInstance` -/

section Sign

variable {R : Type} [LinearOrderedField R]

end Sign

section Reflection

variable {R : Type} [LinearOrderedField R]

end Reflection

end Vitruvio
